import Mathlib

/-!
Shallow embedding of the Salary-Prediction repository's drift-detection and
automated-retraining core: the tabular data model, the data cleaner and
dataset merger of `src/utils.py`, the drift analyzer of
`src/drift_detector.py`, the training entry point of `src/train_model.py`,
and the pipeline orchestrator of `automated_pipeline.py`, together with
theorems settling the specification's claims about them.
-/

namespace SalaryPipeline

/-- A cell of a tabular dataset: a numeric value, a string (categorical)
value, or a missing value (pandas `NaN`). -/
inductive Val where
  | num (q : ℚ)
  | str (s : String)
  | na
deriving DecidableEq, Repr

/-- The declared kind of a column (pandas dtype): numeric (`select_dtypes
(include=[np.number])`) or categorical (`select_dtypes(include=['object'])`). -/
inductive ColKind where
  | numeric
  | categorical
deriving DecidableEq, Repr

/-- A tabular dataset (pandas `DataFrame`): ordered named columns, each with a
declared kind, and a list of rows of cells. -/
structure Dataset where
  cols : List String
  kinds : List ColKind
  rows : List (List Val)
deriving DecidableEq, Repr

/-- Index of the column named `c` (`l.findIdx`, the length of `l` if absent). -/
def colIdx (cols : List String) (c : String) : Nat :=
  cols.findIdx (· == c)

/-- The cells of column `i`, one per row; a cell beyond a row's end reads as
missing. -/
def getCol (d : Dataset) (i : Nat) : List Val :=
  d.rows.map (fun r => r.getD i Val.na)

/-- The cells of the column named `c` (pandas `df[c]`). -/
def colByName (d : Dataset) (c : String) : List Val :=
  getCol d (colIdx d.cols c)

/-- The numeric values of a column with missing values removed
(`df[c].dropna()` on a numeric column). -/
def nonmissingNums (col : List Val) : List ℚ :=
  col.filterMap (fun v => match v with | .num q => some q | _ => none)

/-- The string values of a column with missing values removed
(`value_counts` ignores `NaN`). -/
def nonmissingStrs (col : List Val) : List String :=
  col.filterMap (fun v => match v with | .str s => some s | _ => none)

/-- Names of the columns of numeric kind, in column order. -/
def numericNames (d : Dataset) : List String :=
  (d.cols.zip d.kinds).filterMap
    (fun p => if p.2 = ColKind.numeric then some p.1 else none)

/-- Names of the columns of categorical (object) kind, in column order. -/
def categoricalNames (d : Dataset) : List String :=
  (d.cols.zip d.kinds).filterMap
    (fun p => if p.2 = ColKind.categorical then some p.1 else none)

/-- Keep the first occurrence of every element, dropping later duplicates;
`seen` holds elements already emitted (pandas `drop_duplicates`). -/
def dedupFirstAux {α : Type} [DecidableEq α] (seen : List α) : List α → List α
  | [] => []
  | x :: xs =>
      if x ∈ seen then dedupFirstAux seen xs
      else x :: dedupFirstAux (x :: seen) xs

/-- Remove exact duplicates keeping the first occurrence, preserving the order
of survivors (pandas `drop_duplicates`). -/
def dedupFirst {α : Type} [DecidableEq α] (l : List α) : List α :=
  dedupFirstAux [] l

/-- Replace the cell at index `i` of a row by `w` when that cell is missing
(`fillna` restricted to one column, acting on one row). -/
def fillRow (i : Nat) (w : Val) : List Val → List Val
  | [] => []
  | v :: vs =>
      match i with
      | 0 => (if v = Val.na then w else v) :: vs
      | i + 1 => v :: fillRow i w vs

/-- Fill the missing cells of column `i` with `w`
(`df[col].fillna(w, inplace=True)`). -/
def fillColumn (d : Dataset) (i : Nat) (w : Val) : Dataset :=
  { d with rows := d.rows.map (fillRow i w) }

/-- The real cell at index `i` of row `r`, when it exists, is not missing (a
row too short to have that cell satisfies this vacuously). -/
def RealCellNotNa (i : Nat) (r : List Val) : Prop :=
  r.getD i (Val.str "") ≠ Val.na

/-- No row of `d` has a missing real cell in column `c`'s position: a
`fillna` on that column changes nothing. -/
def ColFilled (d : Dataset) (c : String) : Prop :=
  ∀ r ∈ d.rows, RealCellNotNa (colIdx d.cols c) r

/-- A numeric column is a fixed point of the median fill: either it has no
present numeric values (its median is `NaN`, so filling is a no-op) or no
real cell of it is missing. -/
def NumColOK (d : Dataset) (c : String) : Prop :=
  nonmissingNums (colByName d c) = [] ∨ ColFilled d c

/-- Insert `x` into an already-sorted list of rationals. -/
def insertSorted (x : ℚ) : List ℚ → List ℚ
  | [] => [x]
  | y :: ys => if x ≤ y then x :: y :: ys else y :: insertSorted x ys

/-- Sort a list of rationals ascending (insertion sort). -/
def sortQ (l : List ℚ) : List ℚ :=
  l.foldr insertSorted []

/-- Median of a list of rationals, pandas interpolation: the middle element
for odd length, the mean of the two middle elements for even length
(`Series.median` over the non-missing values; never invoked on `[]`). -/
def medianQ (l : List ℚ) : ℚ :=
  let s := sortQ l
  let n := s.length
  if n % 2 = 1 then s.getD (n / 2) 0
  else (s.getD (n / 2 - 1) 0 + s.getD (n / 2) 0) / 2

/-- The most frequent value of a list of strings, ties broken by the smallest
string (`Series.mode()[0]`: pandas sorts the modes ascending); `"Unknown"` on
an empty list (`mode().empty`). -/
def modeStr (l : List String) : String :=
  match dedupFirst l with
  | [] => "Unknown"
  | c :: cs =>
      cs.foldl
        (fun best x =>
          if l.count x > l.count best ∨ (l.count x = l.count best ∧ x < best)
          then x else best) c

/-! ## Data cleaner (`src/utils.py`, `clean_data`) -/

/-- Missing-value policy of `clean_data`: `handle_missing = "drop"` or
`"fill"`. -/
inductive MissingPolicy where
  | drop
  | fill
deriving DecidableEq, Repr

/-- Drop the rows whose target cell is missing, when the target column exists
and has a missing value (`clean_data` lines 40-44: the `dropna(subset=
[target_col])` guarded by `target_col in df.columns` and `missing_target > 0`). -/
def dropMissingTarget (d : Dataset) (target : String) : Dataset :=
  if target ∈ d.cols ∧ Val.na ∈ colByName d target then
    { d with rows :=
        d.rows.filter (fun r => r.getD (colIdx d.cols target) Val.na ≠ Val.na) }
  else d

/-- Number of missing cells in the non-target columns
(`df.drop(columns=[target_col]).isna().sum().sum()`). -/
def missingFeatureCount (d : Dataset) (target : String) : Nat :=
  ((List.range d.cols.length).map
    (fun i =>
      if d.cols.getD i "" = target then 0
      else (getCol d i).count Val.na)).sum

/-- Does row `r` have a missing cell in one of the first `ncols` positions? -/
def rowHasNa (ncols : Nat) (r : List Val) : Bool :=
  (List.range ncols).any (fun i => r.getD i Val.na == Val.na)

/-- Drop every row with a missing value in any column (`df.dropna()`). -/
def dropAllMissing (d : Dataset) : Dataset :=
  { d with rows := d.rows.filter (fun r => ¬ rowHasNa d.cols.length r) }

/-- One iteration of the numeric fill loop of `clean_data` (lines 56-60): for
a non-target column with a missing value, fill with the column's median.  The
median of a column with no present values is `NaN` and `fillna(NaN)` leaves
the column unchanged, modelled by the `= []` branch. -/
def numFillStep (target : String) (acc : Dataset) (c : String) : Dataset :=
  if c ≠ target ∧ Val.na ∈ colByName acc c then
    if nonmissingNums (colByName acc c) = [] then acc
    else
      fillColumn acc (colIdx acc.cols c)
        (Val.num (medianQ (nonmissingNums (colByName acc c))))
  else acc

/-- Fill the missing values of each numeric non-target column with that
column's median (`clean_data` lines 54-60). -/
def fillNumericCols (target : String) (names : List String) (d : Dataset) :
    Dataset :=
  names.foldl (numFillStep target) d

/-- One iteration of the categorical fill loop of `clean_data` (lines 64-68):
for a column with a missing value, fill with the column's mode, or
`"Unknown"` when the column has no present values. -/
def catFillStep (acc : Dataset) (c : String) : Dataset :=
  if Val.na ∈ colByName acc c then
    fillColumn acc (colIdx acc.cols c)
      (Val.str (if nonmissingStrs (colByName acc c) = [] then "Unknown"
                else modeStr (nonmissingStrs (colByName acc c))))
  else acc

/-- Fill the missing values of each categorical column with that column's
mode (`clean_data` lines 63-68). -/
def fillCategoricalCols (names : List String) (d : Dataset) : Dataset :=
  names.foldl catFillStep d

/-- Collapse exact duplicate rows, keeping the first occurrence, when any
duplicate exists (`clean_data` lines 71-75: `drop_duplicates` guarded by
`duplicated().sum() > 0`). -/
def dedupStep (d : Dataset) : Dataset :=
  if d.rows.Nodup then d else { d with rows := dedupFirst d.rows }

/-- The optional duplicate-removal stage (`if remove_duplicates:`). -/
def dedupIf (b : Bool) (d : Dataset) : Dataset :=
  if b then dedupStep d else d

/-- `clean_data(df, target_col, remove_duplicates, handle_missing)` of
`src/utils.py`: drop rows missing the target, then handle missing feature
values by the policy, then optionally collapse duplicates.  Under the `drop`
policy the source evaluates `df.drop(columns=[target_col])`, which raises
`KeyError` when the target column is absent; that exception is the `.error`
branch. -/
def clean_data (d : Dataset) (target : String) (removeDup : Bool)
    (hm : MissingPolicy) : Except String Dataset :=
  match hm with
  | .drop =>
      if target ∈ (dropMissingTarget d target).cols then
        .ok (dedupIf removeDup
          (if missingFeatureCount (dropMissingTarget d target) target > 0
           then dropAllMissing (dropMissingTarget d target)
           else dropMissingTarget d target))
      else .error ("KeyError: " ++ target)
  | .fill =>
      .ok (dedupIf removeDup
        (fillCategoricalCols
          (categoricalNames
            (fillNumericCols target
              (numericNames (dropMissingTarget d target))
              (dropMissingTarget d target)))
          (fillNumericCols target
            (numericNames (dropMissingTarget d target))
            (dropMissingTarget d target))))

/-! ## Dataset merger (`src/utils.py`, `merge_new_data`) -/

/-- The row `r`, coming from a frame with columns `srcCols`, reindexed to the
column list `allCols`: a column absent from the source frame reads as missing
(`pd.concat` aligning frames with different columns). -/
def reindexRow (srcCols allCols : List String) (r : List Val) : List Val :=
  allCols.map
    (fun c => if c ∈ srcCols then r.getD (colIdx srcCols c) Val.na else Val.na)

/-- `pd.concat([old, new], ignore_index=True)`: the result's columns are the
old frame's columns followed by the new frame's extra columns; rows are the old
rows then the new rows, each aligned to that column list, with cells of absent
columns missing.  A shared column keeps the old frame's kind. -/
def concatFrames (old new : Dataset) : Dataset :=
  let allCols := old.cols ++ new.cols.filter (fun c => c ∉ old.cols)
  { cols := allCols
    kinds := allCols.map
      (fun c =>
        if c ∈ old.cols then old.kinds.getD (colIdx old.cols c) ColKind.numeric
        else new.kinds.getD (colIdx new.cols c) ColKind.numeric)
    rows := old.rows.map (reindexRow old.cols allCols) ++
            new.rows.map (reindexRow new.cols allCols) }

/-- Drop the rows of the merged frame whose `Salary` cell is missing, when the
column exists and a missing value is present (`merge_new_data` lines 158-162). -/
def dropMissingSalary (d : Dataset) : Dataset :=
  if "Salary" ∈ d.cols ∧ Val.na ∈ colByName d "Salary" then
    { d with rows :=
        d.rows.filter (fun r =>
          r.getD (colIdx d.cols "Salary") Val.na ≠ Val.na) }
  else d

/-- `merge_new_data(old, new, clean_new_data)` of `src/utils.py`: optionally
clean the new data (target `"Salary"`, duplicates removed, missing dropped),
concatenate old rows then new rows, collapse exact duplicates across the
combined frame (unconditional `drop_duplicates`), and drop rows left with a
missing `Salary`.  Writing the result back to disk is outside the model; the
returned dataset is the written content. -/
def merge_new_data (old new : Dataset) (cleanNew : Bool) :
    Except String Dataset :=
  match (if cleanNew then clean_data new "Salary" true .drop
         else .ok new) with
  | .error e => .error e
  | .ok new' =>
      .ok (dropMissingSalary
        { concatFrames old new' with
          rows := dedupFirst (concatFrames old new').rows })

/-! ## Drift analyzer (`src/drift_detector.py`, `detect_data_drift`) -/

/-- Per-column drift verdict, as recorded in the report dict's `status` field:
`"⚠️ Drift Detected"`, `"✅ Stable"` or `"❌ Error: msg"`. -/
inductive Verdict where
  | drifted
  | stable
  | error (msg : String)
deriving DecidableEq, Repr

/-- One entry of the drift report: a numeric column carries a p-value and a
statistic, a categorical column carries a total variation distance. -/
structure ColReport where
  status : Verdict
  pValue : Option ℚ := none
  statistic : Option ℚ := none
  tvd : Option ℚ := none
deriving DecidableEq, Repr

/-- A notification the analyzer triggers itself (the `send_email` block of
`detect_data_drift`, lines 106-141). -/
inductive NotifyEvent where
  | driftDetected
  | noDrift
deriving DecidableEq, Repr

/-- The result of `detect_data_drift`: the report and flag it returns, plus
the notifications it dispatched along the way. -/
structure DriftOutput where
  report : List (String × ColReport)
  detected : Bool
  events : List NotifyEvent
deriving DecidableEq, Repr

/-- The type of the external two-sample Kolmogorov-Smirnov collaborator
(`scipy.stats.ks_2samp`): from the two samples, a `(statistic, p_value)` pair
or a raised exception. -/
def KSFun : Type := List ℚ → List ℚ → Except String (ℚ × ℚ)

/-- Empirical proportion of category `cat` in a column: its count over the
number of non-missing values (`value_counts(normalize=True)`; an absent
category, or an empty distribution, contributes 0, matching
`dist.get(cat, 0)`). -/
def propOf (col : List Val) (cat : String) : ℚ :=
  let vs := nonmissingStrs col
  (vs.count cat : ℚ) / (vs.length : ℚ)

/-- Total variation distance of a categorical column between the two
datasets: half the sum over the union of observed categories of the absolute
difference of proportions (`detect_data_drift` lines 76-81). -/
def tvdOf (oldCol newCol : List Val) : ℚ :=
  ((dedupFirst (nonmissingStrs oldCol ++ nonmissingStrs newCol)).map
    (fun cat => |propOf oldCol cat - propOf newCol cat|)).sum / 2

/-- Report entry of a numeric column: run the KS test on the non-missing
values of each side; `Drifted` iff `p_value < threshold`; a raised test
exception records an error entry (lines 50-70). -/
def numericVerdict (ks : KSFun) (old new : Dataset) (threshold : ℚ)
    (c : String) : ColReport :=
  match ks (nonmissingNums (colByName old c))
           (nonmissingNums (colByName new c)) with
  | .ok (stat, p) =>
      if p < threshold then
        { status := .drifted, pValue := some p, statistic := some stat }
      else
        { status := .stable, pValue := some p, statistic := some stat }
  | .error e => { status := .error e }

/-- Report entry of a categorical column: `Drifted` iff the total variation
distance exceeds the hard-coded threshold `0.2` (lines 83-93). -/
def categoricalVerdict (old new : Dataset) (c : String) : ColReport :=
  if tvdOf (colByName old c) (colByName new c) > 1/5 then
    { status := .drifted,
      tvd := some (tvdOf (colByName old c) (colByName new c)) }
  else
    { status := .stable,
      tvd := some (tvdOf (colByName old c) (colByName new c)) }

/-- Is the entry a drifted verdict (the branches that set
`drift_detected = True`)? -/
def isDrifted (r : ColReport) : Bool :=
  match r.status with
  | .drifted => true
  | _ => false

/-- `detect_data_drift(old, new, threshold, send_email)` of
`src/drift_detector.py`, over loaded datasets (the two files exist), with the
KS collaborator `ks` passed explicitly and the `NOTIFY_ON_NO_DRIFT`
environment switch as `notifyOnNoDrift`.  Numeric columns of the old frame
other than `Salary` that also appear in the new frame are KS-tested;
categorical columns of the old frame that appear in the new frame get a TVD
verdict; `drift_detected` is true iff some entry is drifted; when `sendEmail`
the function itself dispatches a drift or no-drift notification. -/
def detect_data_drift (ks : KSFun) (old new : Dataset) (threshold : ℚ)
    (sendEmail notifyOnNoDrift : Bool) : DriftOutput :=
  let numericPart :=
    ((numericNames old).filter (fun c => c ∉ ["Salary"])).filterMap
      (fun c =>
        if c ∈ new.cols then some (c, numericVerdict ks old new threshold c)
        else none)
  let categoricalPart :=
    (categoricalNames old).filterMap
      (fun c =>
        if c ∈ new.cols then some (c, categoricalVerdict old new c)
        else none)
  let report := numericPart ++ categoricalPart
  let detected := report.any (fun p => isDrifted p.2)
  { report := report
    detected := detected
    events :=
      if sendEmail then
        if detected then [NotifyEvent.driftDetected]
        else if notifyOnNoDrift then [NotifyEvent.noDrift]
        else []
      else [] }

/-- The spec's wording of total variation distance (section 4.3): half the
sum, over the union of categories appearing in either dataset, of the absolute
difference between the two empirical proportions. -/
def tvdSpec (oldCol newCol : List Val) : ℚ :=
  (((nonmissingStrs oldCol).toFinset ∪ (nonmissingStrs newCol).toFinset).sum
    (fun cat => |propOf oldCol cat - propOf newCol cat|)) / 2

/-- The empirical KS statistic: the largest absolute difference between the
two empirical CDFs, attained at a data point. -/
def ksStatistic (a b : List ℚ) : ℚ :=
  ((a ++ b).map (fun v =>
    |((a.filter (fun x => x ≤ v)).length : ℚ) / (a.length : ℚ) -
      ((b.filter (fun x => x ≤ v)).length : ℚ) / (b.length : ℚ)|)).foldr
    max 0

/-- Modelled from the spec: the external `scipy.stats.ks_2samp` collaborator
(an out-of-scope statistical-test dependency, not part of this repository).
Degenerate input "cannot be computed" (spec section 4.3), matching scipy's
rejection of empty samples; otherwise a test statistic (the exact empirical KS
statistic) and a p-value are produced.  The p-value formula is a monotone
surrogate pinned only by the behavior the spec relies on: identical samples
give statistic 0 and p-value 1. -/
def ksModel : KSFun := fun a b =>
  if a = [] ∨ b = [] then
    .error "Data passed to ks_2samp must not be empty"
  else
    .ok (ksStatistic a b, 1 - ksStatistic a b)

/-! ## Training entry point (`src/train_model.py`, `train_and_save_model`) -/

/-- Evaluation metrics, the training/evaluation collaborator's output. -/
structure Metrics where
  mae : ℚ
  r2 : ℚ
  rmse : ℚ
deriving DecidableEq, Repr

/-- `train_and_save_model` of `src/train_model.py`, over the loaded dataset,
with the external fit-save-evaluate tail (`Pipeline.fit`, `joblib.dump`,
`evaluate_model`) abstracted as `fit`: clean when asked, then raise unless the
target column is present and at least 10 rows remain; only then is the model
fitted and saved. -/
def train_and_save_model (fit : Dataset → Metrics) (df : Dataset)
    (clean : Bool) : Except String Metrics := do
  let df ← if clean then clean_data df "Salary" true .drop else .ok df
  if "Salary" ∉ df.cols then
    .error "Target column 'Salary' not found in data"
  else if df.rows.length < 10 then
    .error ("Insufficient data: " ++ toString df.rows.length ++
      " records. Need at least 10 records for training.")
  else
    .ok (fit df)

/-! ## Pipeline orchestrator (`automated_pipeline.py`) -/

deriving instance DecidableEq for Except

/-- The environment of one orchestrator run: which source files exist, the
outcome each external collaborator would produce (`.error` models a raised
exception), and the notification configuration. -/
structure PipelineEnv where
  newDataExists : Bool
  oldDataExists : Bool
  driftResult : Except String (List (String × ColReport) × Bool)
  mergeResult : Except String Unit
  trainResult : Except String Metrics
  metricsFileOk : Bool
  sendEmail : Bool
  notifySuccessResult : Except String Bool
  notifyFailureRaises : Bool
deriving DecidableEq, Repr

/-- The orchestrator's `results` dict: the recorded outcome of each step. -/
structure StepResults where
  drift_detection : Bool
  preprocessing : Bool
  data_merge : Bool
  training : Bool
  evaluation : Bool
  notification : Bool
deriving DecidableEq, Repr

/-- The observable outcome of one `main()` run: the recorded step results,
the process exit code, which steps were actually attempted, and the drift
report captured (if any). -/
structure RunOutcome where
  results : StepResults
  exitCode : Nat
  trainingAttempted : Bool
  evaluationAttempted : Bool
  notifyStepAttempted : Bool
  failureNotifyAttempted : Bool
  driftReport : Option (List (String × ColReport))
deriving DecidableEq, Repr

/-- `run_drift_detection` of `automated_pipeline.py`: `(None, False)` when
either source file is missing or the detection raises; otherwise the report
and flag. -/
def run_drift_detection (env : PipelineEnv) :
    Option (List (String × ColReport)) × Bool :=
  if ¬ env.newDataExists then (none, false)
  else if ¬ env.oldDataExists then (none, false)
  else
    match env.driftResult with
    | .ok (r, b) => (some r, b)
    | .error _ => (none, false)

/-- `run_preprocessing`: its body only prints, so it always returns `True`. -/
def run_preprocessing : Bool := true

/-- The `merge_new_data` wrapper of `automated_pipeline.py` (line 83):
`False` when the new-data file is missing or the merge raises, else `True`. -/
def merge_step (env : PipelineEnv) : Bool :=
  if ¬ env.newDataExists then false
  else
    match env.mergeResult with
    | .ok _ => true
    | .error _ => false

/-- `run_training`: the metrics on success, `None` when the training
collaborator raises (the exception is caught, lines 128-132). -/
def run_training (env : PipelineEnv) : Option Metrics :=
  match env.trainResult with
  | .ok m => some m
  | .error _ => none

/-- `run_evaluation`: `False` when no metrics came from training, else
whether the persisted metrics file exists and is readable. -/
def run_evaluation (env : PipelineEnv) (m : Option Metrics) : Bool :=
  match m with
  | none => false
  | some _ => env.metricsFileOk

/-- `send_notifications`: `True` when notifications are disabled; otherwise
the delivery result of `notify_training_success`, with a raised exception
recorded as `False`. -/
def send_notifications (env : PipelineEnv) : Bool :=
  if ¬ env.sendEmail then true
  else
    match env.notifySuccessResult with
    | .ok b => b
    | .error _ => false

/-- `main()` of `automated_pipeline.py`: run drift detection (recording
`True` unconditionally, line 220), preprocessing, merge (recorded `True`
outright when no new data exists), then training; a training failure records
`Train = False`, attempts a failure notification only when `SEND_EMAIL` is
set (swallowing any error it raises, lines 239-244) and exits 1 without
evaluating or notifying success; otherwise evaluation and notification run
and the exit code is 0 iff training and evaluation both succeeded. -/
def main (env : PipelineEnv) : RunOutcome :=
  let dr := run_drift_detection env
  let preprocessing := run_preprocessing
  let data_merge := if env.newDataExists then merge_step env else true
  let m := run_training env
  match m with
  | none =>
      { results :=
          { drift_detection := true, preprocessing := preprocessing,
            data_merge := data_merge, training := false,
            evaluation := false, notification := false }
        exitCode := 1
        trainingAttempted := true
        evaluationAttempted := false
        notifyStepAttempted := false
        failureNotifyAttempted := env.sendEmail
        driftReport := dr.1 }
  | some mets =>
      let evaluation := run_evaluation env (some mets)
      let notification := send_notifications env
      { results :=
          { drift_detection := true, preprocessing := preprocessing,
            data_merge := data_merge, training := true,
            evaluation := evaluation, notification := notification }
        exitCode := if evaluation then 0 else 1
        trainingAttempted := true
        evaluationAttempted := true
        notifyStepAttempted := true
        failureNotifyAttempted := false
        driftReport := dr.1 }

/-- The pipeline-summary label of the drift-detection step (line 257):
`"Success"` when its recorded outcome is true, `"Skipped"` otherwise. -/
def driftSummaryLabel (r : StepResults) : String :=
  if r.drift_detection then "Success" else "Skipped"

/-- The pipeline-summary label of the merge, training, evaluation and
notification steps (lines 259-262): `"Success"` or `"Failed"`. -/
def stepSummaryLabel (ok : Bool) : String :=
  if ok then "Success" else "Failed"

/-! ## Concrete instances used by witnesses and counterexamples -/

/-- An environment whose training collaborator raises, notifications on. -/
def envTrainFail : PipelineEnv :=
  { newDataExists := true, oldDataExists := true,
    driftResult := .ok ([], false), mergeResult := .ok (),
    trainResult := .error "TrainingError", metricsFileOk := true,
    sendEmail := true, notifySuccessResult := .ok true,
    notifyFailureRaises := true }

/-- An environment whose training collaborator raises, notifications off. -/
def envTrainFailNoEmail : PipelineEnv :=
  { newDataExists := true, oldDataExists := true,
    driftResult := .ok ([], false), mergeResult := .ok (),
    trainResult := .error "TrainingError", metricsFileOk := true,
    sendEmail := false, notifySuccessResult := .ok true,
    notifyFailureRaises := false }

/-- An environment with the new-data source file absent. -/
def envNoNewData : PipelineEnv :=
  { newDataExists := false, oldDataExists := true,
    driftResult := .ok ([], false), mergeResult := .ok (),
    trainResult := .ok ⟨1, 1, 1⟩, metricsFileOk := true,
    sendEmail := true, notifySuccessResult := .ok true,
    notifyFailureRaises := false }

/-- A second environment with the new-data source file absent. -/
def envNoNewDataCx : PipelineEnv :=
  { newDataExists := false, oldDataExists := true,
    driftResult := .ok ([], false), mergeResult := .ok (),
    trainResult := .ok ⟨2, 1, 3⟩, metricsFileOk := true,
    sendEmail := false, notifySuccessResult := .ok true,
    notifyFailureRaises := false }

/-- A one-row training dataset: fewer than the 10 required records. -/
def dfTiny : Dataset := ⟨["Salary"], [.numeric], [[.num 1]]⟩

/-- A trivial training collaborator tail. -/
def fitTiny : Dataset → Metrics := fun _ => ⟨0, 0, 0⟩

/-- An environment whose training collaborator is the modelled
`train_and_save_model` run on the one-row dataset. -/
def envTiny : PipelineEnv :=
  { newDataExists := false, oldDataExists := true,
    driftResult := .ok ([], false), mergeResult := .ok (),
    trainResult := train_and_save_model fitTiny dfTiny true,
    metricsFileOk := true, sendEmail := true,
    notifySuccessResult := .ok true, notifyFailureRaises := false }

/-- Reference dataset with `City` uniform over `A`, `B`. -/
def cxRefCity : Dataset := ⟨["City"], [.categorical], [[.str "A"], [.str "B"]]⟩

/-- New dataset with `City` concentrated on `B`. -/
def cxNewCity : Dataset := ⟨["City"], [.categorical], [[.str "B"], [.str "B"]]⟩

/-- A dataset with one categorical and one non-degenerate numeric column. -/
def dSelf : Dataset :=
  ⟨["City", "Age"], [.categorical, .numeric], [[.str "X", .num 3]]⟩

/-- A dataset whose only numeric column is entirely missing. -/
def dAllMissing : Dataset := ⟨["Age"], [.numeric], [[.na]]⟩

/-- The spec's concrete scenario: reference `City` proportions
`{A: 1/2, B: 1/2}`. -/
def refCityDs : Dataset := ⟨["City"], [.categorical], [[.str "A"], [.str "B"]]⟩

/-- The spec's concrete scenario: new `City` proportions `{A: 0, B: 1}`. -/
def newCityDs : Dataset := ⟨["City"], [.categorical], [[.str "B"], [.str "B"]]⟩

/-- A dataset lacking the `Salary` target column. -/
def dfNoTarget : Dataset := ⟨["Age"], [.numeric], [[.num 25]]⟩

/-- A dataset with a missing target, missing numeric and categorical feature
values, and a duplicate row. -/
def dfW8 : Dataset :=
  ⟨["Salary", "Age", "City"], [.numeric, .numeric, .categorical],
   [[.num 100, .na, .str "A"],
    [.num 200, .num 30, .na],
    [.na, .num 40, .str "B"],
    [.num 100, .na, .str "A"]]⟩

/-- The cleaned form of `dfW8` under the `fill` policy with duplicate
removal. -/
def dfW8clean : Dataset :=
  ⟨["Salary", "Age", "City"], [.numeric, .numeric, .categorical],
   [[.num 100, .num 30, .str "A"], [.num 200, .num 30, .str "A"]]⟩

/-- A reference dataset whose columns are `Salary`, `A`. -/
def oldC4 : Dataset :=
  ⟨["Salary", "A"], [.numeric, .numeric], [[.num 1, .num 2]]⟩

/-- A new dataset whose columns are `Salary`, `B` — a different column set. -/
def newC4 : Dataset :=
  ⟨["Salary", "B"], [.numeric, .numeric], [[.num 3, .num 4]]⟩

/-- A reference dataset for the matching-schema merge scenario. -/
def oldW4 : Dataset :=
  ⟨["Salary", "City"], [.numeric, .categorical],
   [[.num 1, .str "X"], [.num 2, .str "Y"]]⟩

/-- A new dataset with the same columns as `oldW4`, overlapping in one row. -/
def newW4 : Dataset :=
  ⟨["Salary", "City"], [.numeric, .categorical],
   [[.num 2, .str "Y"], [.num 3, .str "Z"]]⟩

/-- The merged result of `oldW4` and `newW4`: reference rows first, the
cross-dataset duplicate collapsed. -/
def mW4 : Dataset :=
  ⟨["Salary", "City"], [.numeric, .categorical],
   [[.num 1, .str "X"], [.num 2, .str "Y"], [.num 3, .str "Z"]]⟩

/-! ## Claims about the orchestrator (C1, C2, C3) -/

/-- C1 (amended): if the training collaborator raises, the orchestrator
records Train as Failed, never attempts the Evaluate step or the success
Notify step, attempts a failure notification exactly when email notifications
are enabled (swallowing any error that notification raises), and terminates
with exit code 1. -/
theorem training_failure_aborts_run (env : PipelineEnv) (e : String)
    (h : env.trainResult = .error e) :
    (main env).results.training = false ∧
    stepSummaryLabel (main env).results.training = "Failed" ∧
    (main env).evaluationAttempted = false ∧
    (main env).notifyStepAttempted = false ∧
    (main env).failureNotifyAttempted = env.sendEmail ∧
    (main env).exitCode = 1 ∧
    (∀ b, main { env with notifyFailureRaises := b } = main env) := by
  have hrt : run_training env = none := by
    simp [run_training, h]
  refine ⟨?_, ?_, ?_, ?_, ?_, ?_, fun b => rfl⟩ <;>
    simp [main, hrt, stepSummaryLabel]

/-- C1 witness: the amended statement instantiated at a concrete failing
environment with notifications enabled. -/
theorem training_failure_aborts_run_witness :
    (main envTrainFail).results.training = false ∧
    (main envTrainFail).evaluationAttempted = false ∧
    (main envTrainFail).notifyStepAttempted = false ∧
    (main envTrainFail).failureNotifyAttempted = true ∧
    (main envTrainFail).exitCode = 1 := by
  have t := training_failure_aborts_run envTrainFail "TrainingError" rfl
  exact ⟨t.1, t.2.2.1, t.2.2.2.1, t.2.2.2.2.1, t.2.2.2.2.2.1⟩

/-- C1 counterexample: with email notifications disabled
(`SEND_TRAINING_EMAIL=false`), a failed training run attempts no failure
notification at all, contradicting the claim that one is always attempted. -/
theorem training_failure_no_notification_when_disabled :
    (main envTrainFailNoEmail).results.training = false ∧
    (main envTrainFailNoEmail).failureNotifyAttempted = false := by
  decide

/-- C2: for every orchestrator run, the process exit code is 0 if and only if
both the Train step and the Evaluate step are recorded as succeeded; every
other combination of step outcomes (a failed Notify with Train and Evaluate
successful included) exits nonzero. -/
theorem exit_code_zero_iff_train_and_eval (env : PipelineEnv) :
    (main env).exitCode = 0 ↔
      ((main env).results.training = true ∧
       (main env).results.evaluation = true) := by
  unfold main
  cases hm : run_training env with
  | none => simp
  | some mets =>
      cases he : run_evaluation env (some mets) <;> simp [he]

/-- C3 (amended): when the new-data source file is absent, drift detection
returns no report (it is skipped internally) and the merge collaborator is
never consulted, but both steps are *recorded* as successful — the summary
shows `Success`, not `Skipped` — and the Train step still executes against
the existing reference dataset. -/
theorem absent_new_data_records_success_and_trains (env : PipelineEnv)
    (h : env.newDataExists = false) :
    (main env).results.drift_detection = true ∧
    driftSummaryLabel (main env).results = "Success" ∧
    (main env).results.data_merge = true ∧
    stepSummaryLabel (main env).results.data_merge = "Success" ∧
    (main env).driftReport = none ∧
    run_drift_detection env = (none, false) ∧
    (main env).trainingAttempted = true ∧
    (∀ r, main { env with mergeResult := r } = main env) := by
  have hdr : run_drift_detection env = (none, false) := by
    simp [run_drift_detection, h]
  refine ⟨?_, ?_, ?_, ?_, ?_, hdr, ?_, ?_⟩ <;>
    cases htr : env.trainResult <;>
      simp [main, hdr, h, driftSummaryLabel, stepSummaryLabel, htr,
        run_training, run_drift_detection, run_evaluation,
        send_notifications, merge_step]

/-- C3 witness: the amended statement at a concrete environment with the
new-data file absent. -/
theorem absent_new_data_records_success_and_trains_witness :
    (main envNoNewData).results.drift_detection = true ∧
    driftSummaryLabel (main envNoNewData).results = "Success" ∧
    (main envNoNewData).results.data_merge = true ∧
    (main envNoNewData).trainingAttempted = true := by
  have t := absent_new_data_records_success_and_trains envNoNewData rfl
  exact ⟨t.1, t.2.1, t.2.2.1, t.2.2.2.2.2.2.1⟩

/-- C3 counterexample: with the new-data source absent, the recorded outcome
of the Drift Detection step is `True` and its summary line says `"Success"`,
not `"Skipped"`, and likewise the Merge step records `True`/`"Success"` — the
claim that both record `Skipped` is false. -/
theorem absent_new_data_not_recorded_skipped :
    envNoNewDataCx.newDataExists = false ∧
    (main envNoNewDataCx).results.drift_detection = true ∧
    driftSummaryLabel (main envNoNewDataCx).results ≠ "Skipped" ∧
    (main envNoNewDataCx).results.data_merge = true ∧
    stepSummaryLabel (main envNoNewDataCx).results.data_merge ≠ "Skipped" := by
  decide

/-! ## Claim C10: training fails on insufficient data -/

/-- C10: whenever the dataset, after cleaning, has fewer than 10 rows,
`train_and_save_model` raises (so the model is never fitted or saved), and
any orchestrator run whose training collaborator behaves that way records
Train as failed and exits nonzero. -/
theorem training_fails_on_insufficient_rows (fit : Dataset → Metrics)
    (df d' : Dataset) (hc : clean_data df "Salary" true .drop = .ok d')
    (hlt : d'.rows.length < 10) :
    (∃ e, train_and_save_model fit df true = .error e) ∧
    ∀ env : PipelineEnv,
      env.trainResult = train_and_save_model fit df true →
      (main env).results.training = false ∧ (main env).exitCode = 1 := by
  have htr : ∃ e, train_and_save_model fit df true = .error e := by
    unfold train_and_save_model
    rw [hc]
    by_cases hmem : "Salary" ∈ d'.cols <;>
      simp [hmem, hlt, bind, Except.bind]
  refine ⟨htr, ?_⟩
  intro env henv
  obtain ⟨e, he⟩ := htr
  have hrt : run_training env = none := by
    simp [run_training, henv, he]
  constructor <;> simp [main, hrt]

/-- C10 witness: a one-row dataset cleans to itself, has fewer than 10 rows,
training on it raises, and a pipeline run with that collaborator fails. -/
theorem training_fails_on_insufficient_rows_witness :
    (∃ e, train_and_save_model fitTiny dfTiny true = .error e) ∧
    (main envTiny).results.training = false ∧
    (main envTiny).exitCode = 1 := by
  have t := training_fails_on_insufficient_rows fitTiny dfTiny dfTiny
    (by decide) (by decide)
  exact ⟨t.1, (t.2 envTiny rfl).1, (t.2 envTiny rfl).2⟩

/-! ## Lemmas about `dedupFirst` -/

theorem mem_dedupFirstAux {α : Type} [DecidableEq α] (seen : List α)
    (l : List α) (x : α) :
    x ∈ dedupFirstAux seen l ↔ x ∈ l ∧ x ∉ seen := by
  induction l generalizing seen with
  | nil => simp [dedupFirstAux]
  | cons a as ih =>
      by_cases ha : a ∈ seen
      · simp only [dedupFirstAux, if_pos ha, ih, List.mem_cons]
        constructor
        · rintro ⟨hx, hns⟩
          exact ⟨Or.inr hx, hns⟩
        · rintro ⟨hor, hns⟩
          rcases hor with rfl | hx
          · exact absurd ha hns
          · exact ⟨hx, hns⟩
      · simp only [dedupFirstAux, if_neg ha, List.mem_cons, ih]
        constructor
        · rintro (rfl | ⟨hx, hn⟩)
          · exact ⟨Or.inl rfl, ha⟩
          · exact ⟨Or.inr hx, fun hs => hn (Or.inr hs)⟩
        · rintro ⟨rfl | hx, hns⟩
          · exact Or.inl rfl
          · by_cases hxa : x = a
            · exact Or.inl hxa
            · exact Or.inr ⟨hx, fun h => h.elim hxa hns⟩

theorem mem_dedupFirst {α : Type} [DecidableEq α] (l : List α) (x : α) :
    x ∈ dedupFirst l ↔ x ∈ l := by
  simp [dedupFirst, mem_dedupFirstAux]

theorem dedupFirstAux_sublist {α : Type} [DecidableEq α] (seen : List α)
    (l : List α) : (dedupFirstAux seen l).Sublist l := by
  induction l generalizing seen with
  | nil => simp [dedupFirstAux]
  | cons a as ih =>
      by_cases ha : a ∈ seen
      · simp only [dedupFirstAux, if_pos ha]
        exact (ih seen).cons a
      · simp only [dedupFirstAux, if_neg ha]
        exact (ih (a :: seen)).cons₂ a

theorem dedupFirst_sublist {α : Type} [DecidableEq α] (l : List α) :
    (dedupFirst l).Sublist l :=
  dedupFirstAux_sublist [] l

theorem nodup_dedupFirstAux {α : Type} [DecidableEq α] (seen : List α)
    (l : List α) : (dedupFirstAux seen l).Nodup := by
  induction l generalizing seen with
  | nil => simp [dedupFirstAux]
  | cons a as ih =>
      by_cases ha : a ∈ seen
      · simp only [dedupFirstAux, if_pos ha]
        exact ih seen
      · simp only [dedupFirstAux, if_neg ha]
        refine List.nodup_cons.mpr ⟨?_, ih (a :: seen)⟩
        intro hmem
        exact ((mem_dedupFirstAux (a :: seen) as a).mp hmem).2
          (List.mem_cons_self a seen)

theorem nodup_dedupFirst {α : Type} [DecidableEq α] (l : List α) :
    (dedupFirst l).Nodup :=
  nodup_dedupFirstAux [] l

theorem dedupFirstAux_eq_self {α : Type} [DecidableEq α] (seen : List α)
    (l : List α) (hn : l.Nodup) (hd : ∀ x ∈ l, x ∉ seen) :
    dedupFirstAux seen l = l := by
  induction l generalizing seen with
  | nil => simp [dedupFirstAux]
  | cons a as ih =>
      have ha : a ∉ seen := hd a (List.mem_cons_self a as)
      simp only [dedupFirstAux, if_neg ha]
      have hn' := List.nodup_cons.mp hn
      refine congrArg (a :: ·) (ih (a :: seen) hn'.2 ?_)
      intro x hx hs
      rcases List.mem_cons.mp hs with h | h
      · exact hn'.1 (h ▸ hx)
      · exact hd x (List.mem_cons_of_mem a hx) h

theorem dedupFirst_of_nodup {α : Type} [DecidableEq α] (l : List α)
    (hn : l.Nodup) : dedupFirst l = l :=
  dedupFirstAux_eq_self [] l hn (by simp)

theorem toFinset_dedupFirst {α : Type} [DecidableEq α] (l : List α) :
    (dedupFirst l).toFinset = l.toFinset := by
  ext x
  simp [mem_dedupFirst]

/-! ## Lemmas about the analyzer's arithmetic -/

theorem tvdOf_self (col : List Val) : tvdOf col col = 0 := by
  unfold tvdOf
  have h : ∀ q ∈ (dedupFirst (nonmissingStrs col ++ nonmissingStrs col)).map
      (fun cat => |propOf col cat - propOf col cat|), q = 0 := by
    intro q hq
    rcases List.mem_map.mp hq with ⟨cat, _, rfl⟩
    simp
  rw [List.sum_eq_zero h]
  norm_num

theorem tvd_field_of_categoricalVerdict (old new : Dataset) (c : String) :
    (categoricalVerdict old new c).tvd =
      some (tvdOf (colByName old c) (colByName new c)) := by
  unfold categoricalVerdict
  split <;> rfl

theorem status_of_categoricalVerdict (old new : Dataset) (c : String) :
    (categoricalVerdict old new c).status = Verdict.drifted ↔
      tvdOf (colByName old c) (colByName new c) > 1/5 := by
  unfold categoricalVerdict
  by_cases h : tvdOf (colByName old c) (colByName new c) > 1/5
  · rw [if_pos h]
    simpa using h
  · rw [if_neg h]
    simpa using h

theorem foldr_max_zero (l : List ℚ) (h : ∀ x ∈ l, x = 0) :
    l.foldr max 0 = 0 := by
  induction l with
  | nil => rfl
  | cons a as ih =>
      have ha : a = 0 := h a (List.mem_cons_self a as)
      have has : ∀ x ∈ as, x = 0 := fun x hx => h x (List.mem_cons_of_mem a hx)
      simp [ha, ih has]

theorem ksStatistic_self (l : List ℚ) : ksStatistic l l = 0 := by
  unfold ksStatistic
  apply foldr_max_zero
  intro x hx
  rcases List.mem_map.mp hx with ⟨v, _, rfl⟩
  simp

theorem ksModel_self (l : List ℚ) (h : l ≠ []) :
    ksModel l l = Except.ok ((0 : ℚ), (1 : ℚ)) := by
  unfold ksModel
  rw [if_neg (by simp [h])]
  rw [ksStatistic_self]
  norm_num

theorem ksModel_empty : ∃ m, ksModel [] [] = Except.error m :=
  ⟨"Data passed to ks_2samp must not be empty", rfl⟩

/-- A name of a numeric column is a column name. -/
theorem mem_cols_of_mem_numericNames (d : Dataset) (c : String)
    (h : c ∈ numericNames d) : c ∈ d.cols := by
  rcases List.mem_filterMap.mp h with ⟨p, hp, hc⟩
  by_cases hk : p.2 = ColKind.numeric
  · simp only [if_pos hk, Option.some.injEq] at hc
    exact hc ▸ (List.of_mem_zip hp).1
  · simp [if_neg hk] at hc

/-- A name of a categorical column is a column name. -/
theorem mem_cols_of_mem_categoricalNames (d : Dataset) (c : String)
    (h : c ∈ categoricalNames d) : c ∈ d.cols := by
  rcases List.mem_filterMap.mp h with ⟨p, hp, hc⟩
  by_cases hk : p.2 = ColKind.categorical
  · simp only [if_pos hk, Option.some.injEq] at hc
    exact hc ▸ (List.of_mem_zip hp).1
  · simp [if_neg hk] at hc

/-- The source's list-based total variation distance agrees with the spec's
Finset-over-the-union-of-categories wording. -/
theorem tvdOf_eq_tvdSpec (oldCol newCol : List Val) :
    tvdOf oldCol newCol = tvdSpec oldCol newCol := by
  unfold tvdOf tvdSpec
  rw [← List.sum_toFinset _
      (nodup_dedupFirst (nonmissingStrs oldCol ++ nonmissingStrs newCol)),
    toFinset_dedupFirst, List.toFinset_append]

/-! ## Claims about the drift analyzer (C5, C6, C7) -/

/-- C5 (amended): the returned analysis result — the report and the
`drift_detected` flag — is a pure function of the two datasets, the KS
collaborator and the threshold: it is identical across runs regardless of the
`send_email` setting and of the `NOTIFY_ON_NO_DRIFT` environment switch; but
the analyzer does itself dispatch a drift or no-drift notification whenever
`send_email` is enabled (and, for no-drift, `NOTIFY_ON_NO_DRIFT` is set). -/
theorem analysis_result_independent_of_notification (ks : KSFun)
    (old new : Dataset) (threshold : ℚ) (se₁ n₁ se₂ n₂ : Bool) :
    ((detect_data_drift ks old new threshold se₁ n₁).report =
      (detect_data_drift ks old new threshold se₂ n₂).report ∧
    (detect_data_drift ks old new threshold se₁ n₁).detected =
      (detect_data_drift ks old new threshold se₂ n₂).detected) ∧
    (detect_data_drift ks old new threshold se₁ n₁).events =
      (if se₁ then
        if (detect_data_drift ks old new threshold se₁ n₁).detected then
          [NotifyEvent.driftDetected]
        else if n₁ then [NotifyEvent.noDrift]
        else []
      else []) :=
  ⟨⟨rfl, rfl⟩, rfl⟩

/-- C5 counterexample: the analyzer itself triggers a notification — with
`send_email` enabled, analyzing these two datasets dispatches a drift alert
from inside `detect_data_drift`, contradicting the claim that notifying is
solely the orchestrator's responsibility. -/
theorem analyzer_sends_notification_itself :
    (detect_data_drift ksModel cxRefCity cxNewCity (1/20) true true).events =
      [NotifyEvent.driftDetected] := by
  with_unfolding_all rfl

/-- C6 (amended): analyzing a dataset against itself (with a KS collaborator
that raises on empty samples and returns statistic 0, p-value 1 on identical
nonempty samples, as scipy does) yields `drift_detected = false`; no entry is
drifted; every categorical column's verdict is Stable with TVD 0; every
numeric column with at least one non-missing value gets verdict Stable, while
an all-missing numeric column records an Error verdict. -/
theorem self_drift_analysis (ks : KSFun) (D : Dataset) (threshold : ℚ)
    (se nnd : Bool) (hθ : threshold ≤ 1)
    (hok : ∀ l, l ≠ [] → ks l l = Except.ok ((0 : ℚ), (1 : ℚ)))
    (hempty : ∃ m, ks [] [] = Except.error m) :
    (detect_data_drift ks D D threshold se nnd).detected = false ∧
    (∀ p ∈ (detect_data_drift ks D D threshold se nnd).report,
      p.2.status ≠ Verdict.drifted) ∧
    (∀ c, c ∈ categoricalNames D →
      (c, ⟨Verdict.stable, none, none, some 0⟩) ∈
        (detect_data_drift ks D D threshold se nnd).report) ∧
    (∀ c, c ∈ numericNames D → c ≠ "Salary" →
      nonmissingNums (colByName D c) ≠ [] →
      (c, ⟨Verdict.stable, some 1, some 0, none⟩) ∈
        (detect_data_drift ks D D threshold se nnd).report) := by
  have hnumStable : ∀ c, nonmissingNums (colByName D c) ≠ [] →
      numericVerdict ks D D threshold c =
        ⟨Verdict.stable, some 1, some 0, none⟩ := by
    intro c hcne
    unfold numericVerdict
    rw [hok _ hcne]
    simp [not_lt.mpr hθ]
  have hnumErr : ∀ c, nonmissingNums (colByName D c) = [] →
      ∃ m, numericVerdict ks D D threshold c =
        ⟨Verdict.error m, none, none, none⟩ := by
    intro c hc0
    obtain ⟨m, hm⟩ := hempty
    refine ⟨m, ?_⟩
    unfold numericVerdict
    rw [hc0, hm]
  have hcat : ∀ c, categoricalVerdict D D c =
      ⟨Verdict.stable, none, none, some 0⟩ := by
    intro c
    unfold categoricalVerdict
    rw [tvdOf_self]
    norm_num
  have hrep : ∀ p ∈ (detect_data_drift ks D D threshold se nnd).report,
      p.2.status ≠ Verdict.drifted := by
    intro p hp
    rcases List.mem_append.mp hp with h | h
    · rcases List.mem_filterMap.mp h with ⟨c, _, hc⟩
      by_cases hmem : c ∈ D.cols
      · simp only [if_pos hmem, Option.some.injEq] at hc
        rw [← hc]
        by_cases h0 : nonmissingNums (colByName D c) = []
        · obtain ⟨m, hm⟩ := hnumErr c h0
          rw [hm]
          simp
        · rw [hnumStable c h0]
          simp
      · simp [if_neg hmem] at hc
    · rcases List.mem_filterMap.mp h with ⟨c, _, hc⟩
      by_cases hmem : c ∈ D.cols
      · simp only [if_pos hmem, Option.some.injEq] at hc
        rw [← hc, hcat c]
        simp
      · simp [if_neg hmem] at hc
  refine ⟨?_, hrep, ?_, ?_⟩
  · rw [Bool.eq_false_iff]
    intro hdet
    rcases List.any_eq_true.mp hdet with ⟨p, hp, hdr⟩
    have := hrep p hp
    unfold isDrifted at hdr
    cases hst : p.2.status <;> rw [hst] at hdr <;> simp_all
  · intro c hc
    apply List.mem_append_right
    apply List.mem_filterMap.mpr
    refine ⟨c, hc, ?_⟩
    rw [if_pos (mem_cols_of_mem_categoricalNames D c hc), hcat c]
  · intro c hc hsal hne
    apply List.mem_append_left
    apply List.mem_filterMap.mpr
    refine ⟨c, ?_, ?_⟩
    · exact List.mem_filter.mpr ⟨hc, by simp [hsal]⟩
    · rw [if_pos (mem_cols_of_mem_numericNames D c hc), hnumStable c hne]

/-- C6 witness: a concrete dataset with a categorical and a (non-degenerate)
numeric column, analyzed against itself with the modelled KS collaborator. -/
theorem self_drift_analysis_witness :
    (detect_data_drift ksModel dSelf dSelf (1/20) true true).detected =
      false ∧
    ("City", (⟨Verdict.stable, none, none, some 0⟩ : ColReport)) ∈
      (detect_data_drift ksModel dSelf dSelf (1/20) true true).report ∧
    ("Age", (⟨Verdict.stable, some 1, some 0, none⟩ : ColReport)) ∈
      (detect_data_drift ksModel dSelf dSelf (1/20) true true).report := by
  have t := self_drift_analysis ksModel dSelf (1/20) true true
    (by norm_num) (fun l h => ksModel_self l h) ksModel_empty
  refine ⟨t.1, t.2.2.1 "City" (by decide), t.2.2.2 "Age" (by decide)
    (by decide) (by decide)⟩

/-- C6 counterexample: a dataset whose only numeric column is entirely
missing, analyzed against itself: the KS collaborator rejects the empty
samples, so the column's verdict is an Error, not Stable, contradicting the
claim that every numeric column's verdict is Stable (drift is still not
flagged). -/
theorem self_analysis_error_verdict :
    (detect_data_drift ksModel dAllMissing dAllMissing (1/20) false
        false).report =
      [("Age",
        ⟨Verdict.error "Data passed to ks_2samp must not be empty",
          none, none, none⟩)] ∧
    (detect_data_drift ksModel dAllMissing dAllMissing (1/20) false
        false).detected = false := by
  exact ⟨by with_unfolding_all rfl, by with_unfolding_all rfl⟩

/-- C7: every categorical column present in both datasets gets the verdict
entry whose TVD is the spec's total variation distance — half the sum over
the union of observed categories of the absolute difference of empirical
proportions, an absent category contributing 0 — and whose status is Drifted
iff that TVD exceeds 0.2. -/
theorem categorical_tvd_verdict (ks : KSFun) (old new : Dataset)
    (threshold : ℚ) (se nnd : Bool) (c : String)
    (hc : c ∈ categoricalNames old) (hmem : c ∈ new.cols) :
    (c, categoricalVerdict old new c) ∈
      (detect_data_drift ks old new threshold se nnd).report ∧
    (categoricalVerdict old new c).tvd =
      some (tvdSpec (colByName old c) (colByName new c)) ∧
    ((categoricalVerdict old new c).status = Verdict.drifted ↔
      tvdSpec (colByName old c) (colByName new c) > 1/5) := by
  refine ⟨?_, ?_, ?_⟩
  · apply List.mem_append_right
    apply List.mem_filterMap.mpr
    exact ⟨c, hc, by rw [if_pos hmem]⟩
  · rw [tvd_field_of_categoricalVerdict, tvdOf_eq_tvdSpec]
  · rw [status_of_categoricalVerdict, tvdOf_eq_tvdSpec]

/-- C7 witness: the spec's concrete scenario — reference `City` proportions
`{A: 1/2, B: 1/2}` against new proportions `{A: 0, B: 1}` has TVD `1/2`,
which exceeds `0.2`, so the verdict is Drifted. -/
theorem categorical_tvd_verdict_witness :
    ("City", (⟨Verdict.drifted, none, none, some (1/2)⟩ : ColReport)) ∈
      (detect_data_drift ksModel refCityDs newCityDs (1/20) false
        false).report ∧
    tvdSpec (colByName refCityDs "City") (colByName newCityDs "City") =
      1/2 := by
  have t := categorical_tvd_verdict ksModel refCityDs newCityDs (1/20) false
    false "City" (by decide) (by decide)
  have hv : categoricalVerdict refCityDs newCityDs "City" =
      ⟨Verdict.drifted, none, none, some (1/2)⟩ := by
    with_unfolding_all rfl
  have hs : tvdSpec (colByName refCityDs "City")
      (colByName newCityDs "City") = 1/2 := by
    rw [← tvdOf_eq_tvdSpec]
    with_unfolding_all rfl
  exact ⟨hv ▸ t.1, hs⟩

/-! ## Claim C9: the cleaner's KeyError on a missing target column -/

/-- C9 (code bug): a dataset without the target column, cleaned under the
`drop` policy, raises: `clean_data` line 49 evaluates
`df.drop(columns=[target_col])` unguarded, a `KeyError` when the column is
absent — although line 40 guards the target-row removal for exactly this
case, so absent targets were meant to be tolerated. -/
theorem clean_data_raises_without_target :
    clean_data dfNoTarget "Salary" true .drop = .error "KeyError: Salary" := by
  decide

/-! ## Cell-level lemmas about `fillRow` -/

theorem fillRow_getD_ne (w : Val) (x : Val) :
    ∀ (r : List Val) (i j : Nat), j ≠ i →
      (fillRow i w r).getD j x = r.getD j x := by
  intro r
  induction r with
  | nil => intro i j _; simp [fillRow]
  | cons v vs ih =>
      intro i j hj
      cases i with
      | zero =>
          cases j with
          | zero => exact absurd rfl hj
          | succ k => simp [fillRow]
      | succ i =>
          cases j with
          | zero => simp [fillRow]
          | succ k =>
              simp only [fillRow, List.getD_cons_succ]
              exact ih i k (fun h => hj (by rw [h]))

theorem fillRow_getD_self (w : Val) :
    ∀ (r : List Val) (i : Nat), r.getD i Val.na ≠ Val.na →
      (fillRow i w r).getD i Val.na = r.getD i Val.na := by
  intro r
  induction r with
  | nil => intro i h; exact absurd rfl h
  | cons v vs ih =>
      intro i h
      cases i with
      | zero =>
          simp only [List.getD_cons_zero] at h
          simp [fillRow, h]
      | succ i =>
          simp only [fillRow, List.getD_cons_succ] at h ⊢
          exact ih i h

theorem realCellNotNa_fillRow_self (w : Val) (hw : w ≠ Val.na) :
    ∀ (r : List Val) (i : Nat), RealCellNotNa i (fillRow i w r) := by
  intro r
  induction r with
  | nil => intro i; simp [RealCellNotNa, fillRow]
  | cons v vs ih =>
      intro i
      cases i with
      | zero =>
          by_cases hv : v = Val.na <;>
            simp [RealCellNotNa, fillRow, hv, hw]
      | succ i =>
          simpa [RealCellNotNa, fillRow] using ih i

theorem fillRow_eq_self (w : Val) :
    ∀ (r : List Val) (i : Nat), RealCellNotNa i r → fillRow i w r = r := by
  intro r
  induction r with
  | nil => intro i _; simp [fillRow]
  | cons v vs ih =>
      intro i h
      cases i with
      | zero =>
          simp only [RealCellNotNa, List.getD_cons_zero] at h
          simp [fillRow, h]
      | succ i =>
          simp only [RealCellNotNa, List.getD_cons_succ] at h
          simp [fillRow, ih i h]

theorem realCellNotNa_of_getD_na (i : Nat) (r : List Val)
    (h : r.getD i Val.na ≠ Val.na) : RealCellNotNa i r := by
  by_cases hi : i < r.length
  · unfold RealCellNotNa
    rw [List.getD_eq_getElem?_getD, List.getElem?_eq_getElem hi] at h ⊢
    exact h
  · rw [List.getD_eq_getElem?_getD,
      List.getElem?_eq_none (Nat.le_of_not_lt hi)] at h
    exact absurd rfl h

/-! ## Structural lemmas about cleaning operations -/

theorem map_eq_self_of {α : Type} (l : List α) (f : α → α)
    (h : ∀ a ∈ l, f a = a) : l.map f = l := by
  induction l with
  | nil => rfl
  | cons a as ih =>
      rw [List.map_cons, h a (List.mem_cons_self a as),
        ih (fun b hb => h b (List.mem_cons_of_mem a hb))]

theorem foldl_id {α β : Type} (f : β → α → β) (x : β) (l : List α)
    (h : ∀ a ∈ l, f x a = x) : l.foldl f x = x := by
  induction l with
  | nil => rfl
  | cons a as ih =>
      rw [List.foldl_cons, h a (List.mem_cons_self a as)]
      exact ih (fun b hb => h b (List.mem_cons_of_mem a hb))

theorem dropMissingTarget_cols (d : Dataset) (t : String) :
    (dropMissingTarget d t).cols = d.cols := by
  unfold dropMissingTarget
  split <;> rfl

theorem dropMissingTarget_kinds (d : Dataset) (t : String) :
    (dropMissingTarget d t).kinds = d.kinds := by
  unfold dropMissingTarget
  split <;> rfl

theorem dropMissingTarget_rows_sublist (d : Dataset) (t : String) :
    (dropMissingTarget d t).rows.Sublist d.rows := by
  unfold dropMissingTarget
  split
  · exact List.filter_sublist d.rows
  · exact List.Sublist.refl d.rows

theorem dropAllMissing_rows_sublist (d : Dataset) :
    (dropAllMissing d).rows.Sublist d.rows :=
  List.filter_sublist d.rows

theorem dedupStep_cols (d : Dataset) : (dedupStep d).cols = d.cols := by
  unfold dedupStep
  split <;> rfl

theorem dedupStep_kinds (d : Dataset) : (dedupStep d).kinds = d.kinds := by
  unfold dedupStep
  split <;> rfl

theorem dedupStep_rows_sublist (d : Dataset) :
    (dedupStep d).rows.Sublist d.rows := by
  unfold dedupStep
  split
  · exact List.Sublist.refl d.rows
  · exact dedupFirst_sublist d.rows

theorem dedupStep_rows_nodup (d : Dataset) : (dedupStep d).rows.Nodup := by
  unfold dedupStep
  split
  · assumption
  · exact nodup_dedupFirst d.rows

theorem dedupStep_eq_self (d : Dataset) (h : d.rows.Nodup) :
    dedupStep d = d := by
  unfold dedupStep
  rw [if_pos h]

theorem numFillStep_cols (t : String) (d : Dataset) (c : String) :
    (numFillStep t d c).cols = d.cols := by
  unfold numFillStep
  split
  · split <;> rfl
  · rfl

theorem numFillStep_kinds (t : String) (d : Dataset) (c : String) :
    (numFillStep t d c).kinds = d.kinds := by
  unfold numFillStep
  split
  · split <;> rfl
  · rfl

theorem catFillStep_cols (d : Dataset) (c : String) :
    (catFillStep d c).cols = d.cols := by
  unfold catFillStep
  split <;> rfl

theorem catFillStep_kinds (d : Dataset) (c : String) :
    (catFillStep d c).kinds = d.kinds := by
  unfold catFillStep
  split <;> rfl

theorem fillNumericCols_cols (t : String) :
    ∀ (names : List String) (x : Dataset),
      (fillNumericCols t names x).cols = x.cols := by
  intro names
  induction names with
  | nil => intro x; rfl
  | cons c cs ih =>
      intro x
      show (fillNumericCols t cs (numFillStep t x c)).cols = x.cols
      rw [ih (numFillStep t x c), numFillStep_cols]

theorem fillNumericCols_kinds (t : String) :
    ∀ (names : List String) (x : Dataset),
      (fillNumericCols t names x).kinds = x.kinds := by
  intro names
  induction names with
  | nil => intro x; rfl
  | cons c cs ih =>
      intro x
      show (fillNumericCols t cs (numFillStep t x c)).kinds = x.kinds
      rw [ih (numFillStep t x c), numFillStep_kinds]

theorem fillCategoricalCols_cols :
    ∀ (names : List String) (x : Dataset),
      (fillCategoricalCols names x).cols = x.cols := by
  intro names
  induction names with
  | nil => intro x; rfl
  | cons c cs ih =>
      intro x
      show (fillCategoricalCols cs (catFillStep x c)).cols = x.cols
      rw [ih (catFillStep x c), catFillStep_cols]

theorem fillCategoricalCols_kinds :
    ∀ (names : List String) (x : Dataset),
      (fillCategoricalCols names x).kinds = x.kinds := by
  intro names
  induction names with
  | nil => intro x; rfl
  | cons c cs ih =>
      intro x
      show (fillCategoricalCols cs (catFillStep x c)).kinds = x.kinds
      rw [ih (catFillStep x c), catFillStep_kinds]

theorem fillColumn_eq_self (d : Dataset) (i : Nat) (w : Val)
    (h : ∀ r ∈ d.rows, RealCellNotNa i r) : fillColumn d i w = d := by
  unfold fillColumn
  rw [map_eq_self_of _ _ (fun r hr => fillRow_eq_self w r i (h r hr))]

/-- For members of a column list, `colIdx` is injective: the found cell
equals the searched name. -/
theorem colIdx_inj (cols : List String) (c c' : String)
    (hc : c ∈ cols) (hc' : c' ∈ cols) (hne : c ≠ c') :
    colIdx cols c ≠ colIdx cols c' := by
  intro heq
  have h1 : cols.findIdx (· == c) < cols.length :=
    List.findIdx_lt_length.mpr ⟨c, hc, by simp⟩
  have h2 : cols.findIdx (· == c') < cols.length :=
    List.findIdx_lt_length.mpr ⟨c', hc', by simp⟩
  have g1 := @List.findIdx_getElem _ (· == c) cols h1
  have g2 := @List.findIdx_getElem _ (· == c') cols h2
  unfold colIdx at heq
  have hopt : cols[cols.findIdx (· == c)]? = cols[cols.findIdx (· == c')]? := by
    rw [heq]
  rw [List.getElem?_eq_getElem h1, List.getElem?_eq_getElem h2] at hopt
  exact hne (((eq_of_beq g1).symm.trans (Option.some.inj hopt)).trans
    (eq_of_beq g2))

/-! ## Preservation lemmas for column properties -/

theorem colByName_sublist (d' d : Dataset) (c : String)
    (hcols : d'.cols = d.cols) (hsub : d'.rows.Sublist d.rows) :
    (colByName d' c).Sublist (colByName d c) := by
  unfold colByName getCol
  rw [hcols]
  exact hsub.map _

theorem notNaCol_of_sublist (d' d : Dataset) (c : String)
    (hcols : d'.cols = d.cols) (hsub : d'.rows.Sublist d.rows)
    (h : Val.na ∉ colByName d c) : Val.na ∉ colByName d' c :=
  fun hmem => h ((colByName_sublist d' d c hcols hsub).subset hmem)

theorem colFilled_of_sublist (d' d : Dataset) (c : String)
    (hcols : d'.cols = d.cols) (hsub : d'.rows.Sublist d.rows)
    (h : ColFilled d c) : ColFilled d' c := by
  intro r hr
  rw [hcols]
  exact h r (hsub.subset hr)

theorem numColOK_of_sublist (d' d : Dataset) (c : String)
    (hcols : d'.cols = d.cols) (hsub : d'.rows.Sublist d.rows)
    (h : NumColOK d c) : NumColOK d' c := by
  rcases h with h | h
  · left
    have hs : (nonmissingNums (colByName d' c)).Sublist
        (nonmissingNums (colByName d c)) :=
      (colByName_sublist d' d c hcols hsub).filterMap _
    rw [h] at hs
    exact List.sublist_nil.mp hs
  · exact Or.inr (colFilled_of_sublist d' d c hcols hsub h)

theorem fillColumn_colByName_ne (d : Dataset) (j : Nat) (w : Val)
    (c : String) (hne : colIdx d.cols c ≠ j) :
    colByName (fillColumn d j w) c = colByName d c := by
  unfold colByName getCol fillColumn
  simp only [List.map_map]
  exact List.map_congr_left
    (fun r _ => fillRow_getD_ne w Val.na r j (colIdx d.cols c) hne)

theorem fillColumn_preserves_colFilled (d : Dataset) (j : Nat) (w : Val)
    (c : String) (hne : colIdx d.cols c ≠ j) (h : ColFilled d c) :
    ColFilled (fillColumn d j w) c := by
  intro r hr
  rcases List.mem_map.mp hr with ⟨r0, hr0, rfl⟩
  show RealCellNotNa (colIdx d.cols c) (fillRow j w r0)
  unfold RealCellNotNa
  rw [fillRow_getD_ne w (Val.str "") r0 j (colIdx d.cols c) hne]
  exact h r0 hr0

theorem fillColumn_preserves_numColOK (d : Dataset) (j : Nat) (w : Val)
    (c : String) (hne : colIdx d.cols c ≠ j) (h : NumColOK d c) :
    NumColOK (fillColumn d j w) c := by
  rcases h with h | h
  · left
    show nonmissingNums (colByName (fillColumn d j w) c) = []
    rw [fillColumn_colByName_ne d j w c hne]
    exact h
  · exact Or.inr (fillColumn_preserves_colFilled d j w c hne h)

theorem fillColumn_preserves_notNaCol (d : Dataset) (j : Nat) (w : Val)
    (c : String) (h : Val.na ∉ colByName d c) :
    Val.na ∉ colByName (fillColumn d j w) c := by
  intro hmem
  unfold colByName getCol fillColumn at hmem
  simp only [List.map_map, List.mem_map] at hmem
  rcases hmem with ⟨r, hr, hval⟩
  have hr0 : r.getD (colIdx d.cols c) Val.na ≠ Val.na := by
    intro h0
    exact h (by
      unfold colByName getCol
      exact List.mem_map.mpr ⟨r, hr, h0⟩)
  by_cases hij : colIdx d.cols c = j
  · subst hij
    rw [Function.comp_apply,
      fillRow_getD_self w r (colIdx d.cols c) hr0] at hval
    exact hr0 hval
  · rw [Function.comp_apply,
      fillRow_getD_ne w Val.na r j (colIdx d.cols c) hij] at hval
    exact hr0 hval

/-! ## Lemmas about the fill passes -/

theorem numFillStep_establishes (t : String) (d : Dataset) (c : String)
    (hct : c ≠ t) : NumColOK (numFillStep t d c) c := by
  unfold numFillStep
  by_cases hg : c ≠ t ∧ Val.na ∈ colByName d c
  · rw [if_pos hg]
    by_cases h0 : nonmissingNums (colByName d c) = []
    · rw [if_pos h0]
      exact Or.inl h0
    · rw [if_neg h0]
      right
      intro r hr
      rcases List.mem_map.mp hr with ⟨r0, _, rfl⟩
      show RealCellNotNa (colIdx d.cols c) (fillRow (colIdx d.cols c) _ r0)
      exact realCellNotNa_fillRow_self _ (by simp) r0 (colIdx d.cols c)
  · rw [if_neg hg]
    right
    intro r hr
    apply realCellNotNa_of_getD_na
    intro h0
    exact hg ⟨hct, by
      unfold colByName getCol
      exact List.mem_map.mpr ⟨r, hr, h0⟩⟩

theorem catFillStep_establishes (d : Dataset) (c : String) :
    ColFilled (catFillStep d c) c := by
  unfold catFillStep
  by_cases hg : Val.na ∈ colByName d c
  · rw [if_pos hg]
    intro r hr
    rcases List.mem_map.mp hr with ⟨r0, _, rfl⟩
    show RealCellNotNa (colIdx d.cols c) (fillRow (colIdx d.cols c) _ r0)
    exact realCellNotNa_fillRow_self _ (by simp) r0 (colIdx d.cols c)
  · rw [if_neg hg]
    intro r hr
    apply realCellNotNa_of_getD_na
    intro h0
    exact hg (by
      unfold colByName getCol
      exact List.mem_map.mpr ⟨r, hr, h0⟩)

theorem numFillStep_preserves_numColOK (t : String) (d : Dataset)
    (a c : String) (hca : c ≠ a) (hc : c ∈ d.cols) (ha : a ∈ d.cols)
    (h : NumColOK d c) : NumColOK (numFillStep t d a) c := by
  unfold numFillStep
  by_cases hg : a ≠ t ∧ Val.na ∈ colByName d a
  · rw [if_pos hg]
    by_cases h0 : nonmissingNums (colByName d a) = []
    · rw [if_pos h0]; exact h
    · rw [if_neg h0]
      exact fillColumn_preserves_numColOK d (colIdx d.cols a) _ c
        (colIdx_inj d.cols c a hc ha hca) h
  · rw [if_neg hg]; exact h

theorem numFillStep_preserves_colFilled (t : String) (d : Dataset)
    (a c : String) (hca : c ≠ a) (hc : c ∈ d.cols) (ha : a ∈ d.cols)
    (h : ColFilled d c) : ColFilled (numFillStep t d a) c := by
  unfold numFillStep
  by_cases hg : a ≠ t ∧ Val.na ∈ colByName d a
  · rw [if_pos hg]
    by_cases h0 : nonmissingNums (colByName d a) = []
    · rw [if_pos h0]; exact h
    · rw [if_neg h0]
      exact fillColumn_preserves_colFilled d (colIdx d.cols a) _ c
        (colIdx_inj d.cols c a hc ha hca) h
  · rw [if_neg hg]; exact h

theorem catFillStep_preserves_numColOK (d : Dataset) (a c : String)
    (hca : c ≠ a) (hc : c ∈ d.cols) (ha : a ∈ d.cols)
    (h : NumColOK d c) : NumColOK (catFillStep d a) c := by
  unfold catFillStep
  by_cases hg : Val.na ∈ colByName d a
  · rw [if_pos hg]
    exact fillColumn_preserves_numColOK d (colIdx d.cols a) _ c
      (colIdx_inj d.cols c a hc ha hca) h
  · rw [if_neg hg]; exact h

theorem catFillStep_preserves_colFilled (d : Dataset) (a c : String)
    (hca : c ≠ a) (hc : c ∈ d.cols) (ha : a ∈ d.cols)
    (h : ColFilled d c) : ColFilled (catFillStep d a) c := by
  unfold catFillStep
  by_cases hg : Val.na ∈ colByName d a
  · rw [if_pos hg]
    exact fillColumn_preserves_colFilled d (colIdx d.cols a) _ c
      (colIdx_inj d.cols c a hc ha hca) h
  · rw [if_neg hg]; exact h

theorem numFillStep_preserves_notNaCol (t : String) (d : Dataset)
    (a c : String) (h : Val.na ∉ colByName d c) :
    Val.na ∉ colByName (numFillStep t d a) c := by
  unfold numFillStep
  by_cases hg : a ≠ t ∧ Val.na ∈ colByName d a
  · rw [if_pos hg]
    by_cases h0 : nonmissingNums (colByName d a) = []
    · rw [if_pos h0]; exact h
    · rw [if_neg h0]
      exact fillColumn_preserves_notNaCol d (colIdx d.cols a) _ c h
  · rw [if_neg hg]; exact h

theorem catFillStep_preserves_notNaCol (d : Dataset) (a c : String)
    (h : Val.na ∉ colByName d c) :
    Val.na ∉ colByName (catFillStep d a) c := by
  unfold catFillStep
  by_cases hg : Val.na ∈ colByName d a
  · rw [if_pos hg]
    exact fillColumn_preserves_notNaCol d (colIdx d.cols a) _ c h
  · rw [if_neg hg]; exact h

/-! ## Lemmas about kind-filtered column names -/

theorem kindNames_sublist (k : ColKind) :
    ∀ (cols : List String) (kinds : List ColKind),
      ((cols.zip kinds).filterMap
        (fun p => if p.2 = k then some p.1 else none)).Sublist cols := by
  intro cols
  induction cols with
  | nil => intro kinds; simp
  | cons c cs ih =>
      intro kinds
      cases kinds with
      | nil => simp
      | cons k0 ks =>
          rw [List.zip_cons_cons, List.filterMap_cons]
          by_cases hk : k0 = k
          · simp only [hk, if_pos rfl]
            exact (ih ks).cons₂ c
          · simp only [if_neg hk]
            exact (ih ks).cons c

theorem numericNames_sublist (d : Dataset) :
    (numericNames d).Sublist d.cols :=
  kindNames_sublist ColKind.numeric d.cols d.kinds

theorem categoricalNames_sublist (d : Dataset) :
    (categoricalNames d).Sublist d.cols :=
  kindNames_sublist ColKind.categorical d.cols d.kinds

theorem kindNames_disjoint :
    ∀ (cols : List String) (kinds : List ColKind), cols.Nodup →
      ∀ c, c ∈ (cols.zip kinds).filterMap
          (fun p => if p.2 = ColKind.numeric then some p.1 else none) →
        c ∈ (cols.zip kinds).filterMap
          (fun p => if p.2 = ColKind.categorical then some p.1 else none) →
        False := by
  intro cols
  induction cols with
  | nil => intro kinds _ c hn; simp at hn
  | cons c0 cs ih =>
      intro kinds hnd c hn hc
      cases kinds with
      | nil => simp at hn
      | cons k0 ks =>
          rw [List.zip_cons_cons, List.filterMap_cons] at hn hc
          have hnd' := List.nodup_cons.mp hnd
          cases k0 with
          | numeric =>
              simp only [if_pos rfl] at hn
              simp only [if_neg (by simp : ColKind.numeric ≠
                ColKind.categorical)] at hc
              rcases List.mem_cons.mp hn with rfl | hn'
              · exact hnd'.1
                  ((kindNames_sublist ColKind.categorical cs ks).subset hc)
              · exact ih ks hnd'.2 c hn' hc
          | categorical =>
              simp only [if_neg (by simp : ColKind.categorical ≠
                ColKind.numeric)] at hn
              simp only [if_pos rfl] at hc
              rcases List.mem_cons.mp hc with rfl | hc'
              · exact hnd'.1
                  ((kindNames_sublist ColKind.numeric cs ks).subset hn)
              · exact ih ks hnd'.2 c hn hc'

theorem numeric_cat_disjoint (d : Dataset) (hnd : d.cols.Nodup) (c : String)
    (hn : c ∈ numericNames d) (hc : c ∈ categoricalNames d) : False :=
  kindNames_disjoint d.cols d.kinds hnd c hn hc

/-! ## Fold-level lemmas about the fill passes -/

theorem fillNumericCols_preserves_numColOK (t c : String) :
    ∀ (names : List String) (x : Dataset), c ∉ names → c ∈ x.cols →
      (∀ a ∈ names, a ∈ x.cols) → NumColOK x c →
      NumColOK (fillNumericCols t names x) c := by
  intro names
  induction names with
  | nil => intro x _ _ _ h; exact h
  | cons a as ih =>
      intro x hcn hc hsub h
      show NumColOK (fillNumericCols t as (numFillStep t x a)) c
      have hca : c ≠ a := fun he => hcn (he ▸ List.mem_cons_self a as)
      have hstep := numFillStep_preserves_numColOK t x a c hca hc
        (hsub a (List.mem_cons_self a as)) h
      exact ih (numFillStep t x a)
        (fun hmem => hcn (List.mem_cons_of_mem a hmem))
        (by rw [numFillStep_cols]; exact hc)
        (fun b hb => by
          rw [numFillStep_cols]
          exact hsub b (List.mem_cons_of_mem a hb))
        hstep

theorem fillNumericCols_numColOK (t : String) :
    ∀ (names : List String) (x : Dataset), names.Nodup →
      (∀ a ∈ names, a ∈ x.cols) → ∀ c ∈ names, c ≠ t →
      NumColOK (fillNumericCols t names x) c := by
  intro names
  induction names with
  | nil => intro x _ _ c hc; simp at hc
  | cons a as ih =>
      intro x hnd hsub c hcmem hct
      have hnd' := List.nodup_cons.mp hnd
      show NumColOK (fillNumericCols t as (numFillStep t x a)) c
      rcases List.mem_cons.mp hcmem with rfl | hcs
      · have hbase := numFillStep_establishes t x c hct
        exact fillNumericCols_preserves_numColOK t c as (numFillStep t x c)
          hnd'.1
          (by rw [numFillStep_cols]; exact hsub c (List.mem_cons_self c as))
          (fun b hb => by
            rw [numFillStep_cols]
            exact hsub b (List.mem_cons_of_mem c hb))
          hbase
      · exact ih (numFillStep t x a) hnd'.2
          (fun b hb => by
            rw [numFillStep_cols]
            exact hsub b (List.mem_cons_of_mem a hb))
          c hcs hct

theorem fillCategoricalCols_preserves_numColOK (c : String) :
    ∀ (names : List String) (x : Dataset), c ∉ names → c ∈ x.cols →
      (∀ a ∈ names, a ∈ x.cols) → NumColOK x c →
      NumColOK (fillCategoricalCols names x) c := by
  intro names
  induction names with
  | nil => intro x _ _ _ h; exact h
  | cons a as ih =>
      intro x hcn hc hsub h
      show NumColOK (fillCategoricalCols as (catFillStep x a)) c
      have hca : c ≠ a := fun he => hcn (he ▸ List.mem_cons_self a as)
      have hstep := catFillStep_preserves_numColOK x a c hca hc
        (hsub a (List.mem_cons_self a as)) h
      exact ih (catFillStep x a)
        (fun hmem => hcn (List.mem_cons_of_mem a hmem))
        (by rw [catFillStep_cols]; exact hc)
        (fun b hb => by
          rw [catFillStep_cols]
          exact hsub b (List.mem_cons_of_mem a hb))
        hstep

theorem fillCategoricalCols_preserves_colFilled (c : String) :
    ∀ (names : List String) (x : Dataset), c ∉ names → c ∈ x.cols →
      (∀ a ∈ names, a ∈ x.cols) → ColFilled x c →
      ColFilled (fillCategoricalCols names x) c := by
  intro names
  induction names with
  | nil => intro x _ _ _ h; exact h
  | cons a as ih =>
      intro x hcn hc hsub h
      show ColFilled (fillCategoricalCols as (catFillStep x a)) c
      have hca : c ≠ a := fun he => hcn (he ▸ List.mem_cons_self a as)
      have hstep := catFillStep_preserves_colFilled x a c hca hc
        (hsub a (List.mem_cons_self a as)) h
      exact ih (catFillStep x a)
        (fun hmem => hcn (List.mem_cons_of_mem a hmem))
        (by rw [catFillStep_cols]; exact hc)
        (fun b hb => by
          rw [catFillStep_cols]
          exact hsub b (List.mem_cons_of_mem a hb))
        hstep

theorem fillCategoricalCols_colFilled :
    ∀ (names : List String) (x : Dataset), names.Nodup →
      (∀ a ∈ names, a ∈ x.cols) → ∀ c ∈ names,
      ColFilled (fillCategoricalCols names x) c := by
  intro names
  induction names with
  | nil => intro x _ _ c hc; simp at hc
  | cons a as ih =>
      intro x hnd hsub c hcmem
      have hnd' := List.nodup_cons.mp hnd
      show ColFilled (fillCategoricalCols as (catFillStep x a)) c
      rcases List.mem_cons.mp hcmem with rfl | hcs
      · have hbase := catFillStep_establishes x c
        exact fillCategoricalCols_preserves_colFilled c as (catFillStep x c)
          hnd'.1
          (by rw [catFillStep_cols]; exact hsub c (List.mem_cons_self c as))
          (fun b hb => by
            rw [catFillStep_cols]
            exact hsub b (List.mem_cons_of_mem c hb))
          hbase
      · exact ih (catFillStep x a) hnd'.2
          (fun b hb => by
            rw [catFillStep_cols]
            exact hsub b (List.mem_cons_of_mem a hb))
          c hcs

theorem fillNumericCols_preserves_notNaCol (t c : String) :
    ∀ (names : List String) (x : Dataset), Val.na ∉ colByName x c →
      Val.na ∉ colByName (fillNumericCols t names x) c := by
  intro names
  induction names with
  | nil => intro x h; exact h
  | cons a as ih =>
      intro x h
      exact ih (numFillStep t x a) (numFillStep_preserves_notNaCol t x a c h)

theorem fillCategoricalCols_preserves_notNaCol (c : String) :
    ∀ (names : List String) (x : Dataset), Val.na ∉ colByName x c →
      Val.na ∉ colByName (fillCategoricalCols names x) c := by
  intro names
  induction names with
  | nil => intro x h; exact h
  | cons a as ih =>
      intro x h
      exact ih (catFillStep x a) (catFillStep_preserves_notNaCol x a c h)

/-! ## Lemmas about the drop policy and the target column -/

theorem natSum_eq_zero {l : List ℕ} : l.sum = 0 ↔ ∀ x ∈ l, x = 0 := by
  induction l with
  | nil => simp
  | cons a as ih => simp [Nat.add_eq_zero, ih]

theorem missingFeatureCount_zero_of (d : Dataset) (t : String)
    (h : ∀ i, i < d.cols.length → d.cols.getD i "" ≠ t →
      Val.na ∉ getCol d i) : missingFeatureCount d t = 0 := by
  unfold missingFeatureCount
  rw [natSum_eq_zero]
  intro x hx
  rcases List.mem_map.mp hx with ⟨i, hi, rfl⟩
  rw [List.mem_range] at hi
  by_cases hc : d.cols.getD i "" = t
  · rw [if_pos hc]
  · rw [if_neg hc]
    exact List.count_eq_zero.mpr (h i hi hc)

theorem notNa_getCol_of_count_zero (d : Dataset) (t : String)
    (h : missingFeatureCount d t = 0) :
    ∀ i, i < d.cols.length → d.cols.getD i "" ≠ t →
      Val.na ∉ getCol d i := by
  intro i hi hc
  unfold missingFeatureCount at h
  rw [natSum_eq_zero] at h
  have := h _ (List.mem_map.mpr ⟨i, List.mem_range.mpr hi, rfl⟩)
  rw [if_neg hc] at this
  exact List.count_eq_zero.mp this

theorem getCol_sublist (d' d : Dataset) (i : Nat)
    (hsub : d'.rows.Sublist d.rows) :
    (getCol d' i).Sublist (getCol d i) :=
  hsub.map _

theorem dropAllMissing_notNa (d : Dataset) :
    ∀ i, i < d.cols.length → Val.na ∉ getCol (dropAllMissing d) i := by
  intro i hi hmem
  unfold dropAllMissing getCol at hmem
  rcases List.mem_map.mp hmem with ⟨r, hr, hval⟩
  have hkeep := (List.mem_filter.mp hr).2
  have hkeep' : rowHasNa d.cols.length r = false :=
    Bool.eq_false_iff.mpr (of_decide_eq_true hkeep)
  unfold rowHasNa at hkeep'
  rw [List.any_eq_false] at hkeep'
  have := hkeep' i (List.mem_range.mpr hi)
  rw [hval] at this
  simp at this

theorem dropMissingTarget_notNaCol (d : Dataset) (t : String)
    (ht : t ∈ d.cols) :
    Val.na ∉ colByName (dropMissingTarget d t) t := by
  unfold dropMissingTarget
  by_cases hg : t ∈ d.cols ∧ Val.na ∈ colByName d t
  · rw [if_pos hg]
    intro hmem
    unfold colByName getCol at hmem
    simp only at hmem
    rcases List.mem_map.mp hmem with ⟨r, hr, hval⟩
    have hkeep := (List.mem_filter.mp hr).2
    rw [decide_eq_true_eq] at hkeep
    exact hkeep hval
  · rw [if_neg hg]
    intro hmem
    exact hg ⟨ht, hmem⟩

theorem dropMissingTarget_eq_self (d : Dataset) (t : String)
    (h : Val.na ∉ colByName d t) : dropMissingTarget d t = d := by
  unfold dropMissingTarget
  rw [if_neg (fun hg => h hg.2)]

theorem dropMissingTarget_eq_self_of_not_mem (d : Dataset) (t : String)
    (h : t ∉ d.cols) : dropMissingTarget d t = d := by
  unfold dropMissingTarget
  rw [if_neg (fun hg => h hg.1)]

theorem numericNames_congr (d' d : Dataset) (hcols : d'.cols = d.cols)
    (hkinds : d'.kinds = d.kinds) : numericNames d' = numericNames d := by
  unfold numericNames
  rw [hcols, hkinds]

theorem categoricalNames_congr (d' d : Dataset) (hcols : d'.cols = d.cols)
    (hkinds : d'.kinds = d.kinds) :
    categoricalNames d' = categoricalNames d := by
  unfold categoricalNames
  rw [hcols, hkinds]

theorem missingFeatureCount_zero_sublist (d' d : Dataset) (t : String)
    (hcols : d'.cols = d.cols) (hsub : d'.rows.Sublist d.rows)
    (h : missingFeatureCount d t = 0) : missingFeatureCount d' t = 0 := by
  apply missingFeatureCount_zero_of
  intro i hi hname
  rw [hcols] at hi hname
  intro hmem
  exact notNa_getCol_of_count_zero d t h i hi hname
    ((getCol_sublist d' d i hsub).subset hmem)

theorem numFillStep_id (t : String) (d : Dataset) (c : String)
    (h : NumColOK d c) : numFillStep t d c = d := by
  unfold numFillStep
  by_cases hg : c ≠ t ∧ Val.na ∈ colByName d c
  · rw [if_pos hg]
    by_cases h0 : nonmissingNums (colByName d c) = []
    · rw [if_pos h0]
    · rw [if_neg h0]
      rcases h with h | h
      · exact absurd h h0
      · exact fillColumn_eq_self d (colIdx d.cols c) _ h
  · rw [if_neg hg]

theorem catFillStep_id (d : Dataset) (c : String) (h : ColFilled d c) :
    catFillStep d c = d := by
  unfold catFillStep
  by_cases hg : Val.na ∈ colByName d c
  · rw [if_pos hg]
    exact fillColumn_eq_self d (colIdx d.cols c) _ h
  · rw [if_neg hg]

theorem numFillStep_id_target (t : String) (d : Dataset) :
    numFillStep t d t = d := by
  unfold numFillStep
  rw [if_neg (fun hg => hg.1 rfl)]

theorem dedupIf_cols (b : Bool) (d : Dataset) : (dedupIf b d).cols = d.cols := by
  unfold dedupIf
  split
  · exact dedupStep_cols d
  · rfl

theorem dedupIf_kinds (b : Bool) (d : Dataset) :
    (dedupIf b d).kinds = d.kinds := by
  unfold dedupIf
  split
  · exact dedupStep_kinds d
  · rfl

theorem dedupIf_rows_sublist (b : Bool) (d : Dataset) :
    (dedupIf b d).rows.Sublist d.rows := by
  unfold dedupIf
  split
  · exact dedupStep_rows_sublist d
  · exact List.Sublist.refl d.rows

theorem dedupIf_idem (b : Bool) (d : Dataset) :
    dedupIf b (dedupIf b d) = dedupIf b d := by
  cases b with
  | false => rfl
  | true =>
      show dedupIf true (dedupStep d) = dedupStep d
      unfold dedupIf
      rw [if_pos rfl]
      exact dedupStep_eq_self (dedupStep d) (dedupStep_rows_nodup d)

/-- Idempotence of the cleaner under the `drop` missing-value policy. -/
theorem clean_data_drop_idem (d : Dataset) (target : String) (rd : Bool)
    (d' : Dataset) (h : clean_data d target rd .drop = .ok d') :
    clean_data d' target rd .drop = .ok d' := by
  simp only [clean_data] at h ⊢
  by_cases ht : target ∈ (dropMissingTarget d target).cols
  · rw [if_pos ht] at h
    injection h with hd'
    have htd : target ∈ d.cols := by
      rw [← dropMissingTarget_cols d target]
      exact ht
    have hd2cols : (if missingFeatureCount (dropMissingTarget d target)
        target > 0 then dropAllMissing (dropMissingTarget d target)
        else dropMissingTarget d target).cols = d.cols := by
      split
      · exact dropMissingTarget_cols d target
      · exact dropMissingTarget_cols d target
    have hd2sub : (if missingFeatureCount (dropMissingTarget d target)
        target > 0 then dropAllMissing (dropMissingTarget d target)
        else dropMissingTarget d target).rows.Sublist
          (dropMissingTarget d target).rows := by
      split
      · exact dropAllMissing_rows_sublist _
      · exact List.Sublist.refl _
    have hd2notNa : Val.na ∉ colByName
        (if missingFeatureCount (dropMissingTarget d target) target > 0
         then dropAllMissing (dropMissingTarget d target)
         else dropMissingTarget d target) target :=
      notNaCol_of_sublist _ _ target
        (by rw [hd2cols, dropMissingTarget_cols]) hd2sub
        (dropMissingTarget_notNaCol d target htd)
    have hd2cnt : missingFeatureCount
        (if missingFeatureCount (dropMissingTarget d target) target > 0
         then dropAllMissing (dropMissingTarget d target)
         else dropMissingTarget d target) target = 0 := by
      split
      case isTrue hpos =>
          apply missingFeatureCount_zero_of
          intro i hi _
          exact dropAllMissing_notNa (dropMissingTarget d target) i hi
      case isFalse hneg => exact Nat.eq_zero_of_not_pos hneg
    have hd'cols : d'.cols = d.cols := by
      rw [← hd', dedupIf_cols]
      exact hd2cols
    have hd'sub : d'.rows.Sublist
        (if missingFeatureCount (dropMissingTarget d target) target > 0
         then dropAllMissing (dropMissingTarget d target)
         else dropMissingTarget d target).rows := by
      rw [← hd']
      exact dedupIf_rows_sublist rd _
    have hd'notNa : Val.na ∉ colByName d' target :=
      notNaCol_of_sublist _ _ target (by rw [hd'cols, hd2cols]) hd'sub
        hd2notNa
    have hd'cnt : missingFeatureCount d' target = 0 :=
      missingFeatureCount_zero_sublist d' _ target
        (by rw [hd'cols, hd2cols]) hd'sub hd2cnt
    have hdrop' : dropMissingTarget d' target = d' :=
      dropMissingTarget_eq_self d' target hd'notNa
    rw [hdrop', if_pos (show target ∈ d'.cols by rw [hd'cols]; exact htd),
      if_neg (show ¬ missingFeatureCount d' target > 0 by
        rw [hd'cnt]; exact lt_irrefl 0),
      ← hd']
    exact congrArg Except.ok (dedupIf_idem rd _)
  · rw [if_neg ht] at h
    simp at h

/-- Idempotence of the cleaner under the `fill` missing-value policy. -/
theorem clean_data_fill_idem (d : Dataset) (target : String) (rd : Bool)
    (d' : Dataset) (hnd : d.cols.Nodup)
    (h : clean_data d target rd .fill = .ok d') :
    clean_data d' target rd .fill = .ok d' := by
  simp only [clean_data] at h ⊢
  set d1 := dropMissingTarget d target with hdef1
  set dN := fillNumericCols target (numericNames d1) d1 with hdefN
  set d3 := fillCategoricalCols (categoricalNames dN) dN with hdef3
  injection h with hd'
  have hc1 : d1.cols = d.cols := dropMissingTarget_cols d target
  have hk1 : d1.kinds = d.kinds := dropMissingTarget_kinds d target
  have hcN : dN.cols = d.cols := by
    rw [hdefN, fillNumericCols_cols]
    exact hc1
  have hkN : dN.kinds = d.kinds := by
    rw [hdefN, fillNumericCols_kinds]
    exact hk1
  have hc3 : d3.cols = d.cols := by
    rw [hdef3, fillCategoricalCols_cols]
    exact hcN
  have hk3 : d3.kinds = d.kinds := by
    rw [hdef3, fillCategoricalCols_kinds]
    exact hkN
  have hd'cols : d'.cols = d.cols := by
    rw [← hd', dedupIf_cols]
    exact hc3
  have hd'kinds : d'.kinds = d.kinds := by
    rw [← hd', dedupIf_kinds]
    exact hk3
  have hd'sub3 : d'.rows.Sublist d3.rows := by
    rw [← hd']
    exact dedupIf_rows_sublist rd d3
  have hd'c3 : d'.cols = d3.cols := by rw [hd'cols, hc3]
  have hnn1 : numericNames d1 = numericNames d :=
    numericNames_congr d1 d hc1 hk1
  have hcnN : categoricalNames dN = categoricalNames d :=
    categoricalNames_congr dN d hcN hkN
  have hnn' : numericNames d' = numericNames d :=
    numericNames_congr d' d hd'cols hd'kinds
  have hcn' : categoricalNames d' = categoricalNames d :=
    categoricalNames_congr d' d hd'cols hd'kinds
  have hdropEq : dropMissingTarget d' target = d' := by
    by_cases htd : target ∈ d.cols
    · have h1 : Val.na ∉ colByName d1 target :=
        dropMissingTarget_notNaCol d target htd
      have h2 : Val.na ∉ colByName dN target := by
        rw [hdefN]
        exact fillNumericCols_preserves_notNaCol target target
          (numericNames d1) d1 h1
      have h3 : Val.na ∉ colByName d3 target := by
        rw [hdef3]
        exact fillCategoricalCols_preserves_notNaCol target
          (categoricalNames dN) dN h2
      exact dropMissingTarget_eq_self d' target
        (notNaCol_of_sublist d' d3 target hd'c3 hd'sub3 h3)
    · exact dropMissingTarget_eq_self_of_not_mem d' target
        (by rw [hd'cols]; exact htd)
  have hnum : ∀ c ∈ numericNames d, c ≠ target → NumColOK d' c := by
    intro c hcmem hct
    have h1 : NumColOK dN c := by
      rw [hdefN]
      exact fillNumericCols_numColOK target (numericNames d1) d1
        (by rw [hnn1]; exact ((numericNames_sublist d).nodup hnd))
        (fun a ha => by
          rw [hc1]
          rw [hnn1] at ha
          exact (numericNames_sublist d).subset ha)
        c (by rw [hnn1]; exact hcmem) hct
    have h2 : NumColOK d3 c := by
      rw [hdef3]
      exact fillCategoricalCols_preserves_numColOK c
        (categoricalNames dN) dN
        (by
          rw [hcnN]
          exact fun hcc => numeric_cat_disjoint d hnd c hcmem hcc)
        (by rw [hcN]; exact (numericNames_sublist d).subset hcmem)
        (fun a ha => by
          rw [hcN]
          rw [hcnN] at ha
          exact (categoricalNames_sublist d).subset ha)
        h1
    exact numColOK_of_sublist d' d3 c hd'c3 hd'sub3 h2
  have hcat : ∀ c ∈ categoricalNames d, ColFilled d' c := by
    intro c hcmem
    have h1 : ColFilled d3 c := by
      rw [hdef3]
      exact fillCategoricalCols_colFilled (categoricalNames dN) dN
        (by rw [hcnN]; exact ((categoricalNames_sublist d).nodup hnd))
        (fun a ha => by
          rw [hcN]
          rw [hcnN] at ha
          exact (categoricalNames_sublist d).subset ha)
        c (by rw [hcnN]; exact hcmem)
    exact colFilled_of_sublist d' d3 c hd'c3 hd'sub3 h1
  have hstepN : fillNumericCols target (numericNames d') d' = d' := by
    apply foldl_id
    intro c hcmem
    by_cases hct : c = target
    · subst hct
      exact numFillStep_id_target c d'
    · exact numFillStep_id target d' c
        (hnum c (by rw [← hnn']; exact hcmem) hct)
  have hstepC : fillCategoricalCols (categoricalNames d') d' = d' := by
    apply foldl_id
    intro c hcmem
    exact catFillStep_id d' c (hcat c (by rw [← hcn']; exact hcmem))
  rw [hdropEq, hstepN, hstepC, ← hd']
  exact congrArg Except.ok (dedupIf_idem rd d3)

/-- C8: for every dataset with well-formed (duplicate-free) column labels,
every target column, duplicate-removal flag and missing-value policy, `clean`
is idempotent: cleaning the cleaner's own output returns it unchanged. -/
theorem clean_data_idempotent (d : Dataset) (target : String) (rd : Bool)
    (hm : MissingPolicy) (d' : Dataset) (hnd : d.cols.Nodup)
    (h : clean_data d target rd hm = .ok d') :
    clean_data d' target rd hm = .ok d' := by
  cases hm with
  | drop => exact clean_data_drop_idem d target rd d' h
  | fill => exact clean_data_fill_idem d target rd d' hnd h

/-- C8 witness: a dataset with a missing target row, missing numeric and
categorical features and a duplicate row cleans (fill policy, duplicates
removed) to a fixed point of `clean`. -/
theorem clean_data_idempotent_witness :
    clean_data dfW8 "Salary" true .fill = .ok dfW8clean ∧
    clean_data dfW8clean "Salary" true .fill = .ok dfW8clean :=
  ⟨by decide,
   clean_data_idempotent dfW8 "Salary" true .fill dfW8clean (by decide)
     (by decide)⟩

/-! ## Lemmas about the merger -/

theorem clean_data_cols (d : Dataset) (t : String) (rd : Bool)
    (hm : MissingPolicy) (d' : Dataset)
    (h : clean_data d t rd hm = .ok d') : d'.cols = d.cols := by
  cases hm with
  | drop =>
      simp only [clean_data] at h
      by_cases ht : t ∈ (dropMissingTarget d t).cols
      · rw [if_pos ht] at h
        injection h with hd'
        rw [← hd', dedupIf_cols]
        split
        · exact dropMissingTarget_cols d t
        · exact dropMissingTarget_cols d t
      · rw [if_neg ht] at h
        simp at h
  | fill =>
      simp only [clean_data] at h
      injection h with hd'
      rw [← hd', dedupIf_cols, fillCategoricalCols_cols,
        fillNumericCols_cols]
      exact dropMissingTarget_cols d t

theorem dropMissingSalary_cols (d : Dataset) :
    (dropMissingSalary d).cols = d.cols := by
  unfold dropMissingSalary
  split <;> rfl

theorem dropMissingSalary_rows_sublist (d : Dataset) :
    (dropMissingSalary d).rows.Sublist d.rows := by
  unfold dropMissingSalary
  split
  · exact List.filter_sublist d.rows
  · exact List.Sublist.refl d.rows

theorem colIdx_getElem_self (cols : List String) (hnd : cols.Nodup)
    (i : Nat) (hi : i < cols.length) : colIdx cols cols[i] = i := by
  have hlt : cols.findIdx (· == cols[i]) < cols.length :=
    List.findIdx_lt_length.mpr ⟨cols[i], List.getElem_mem hi, by simp⟩
  have hfound := @List.findIdx_getElem _ (· == cols[i]) cols hlt
  have hg : cols.get ⟨cols.findIdx (· == cols[i]), hlt⟩ = cols.get ⟨i, hi⟩ := by
    simpa [List.get_eq_getElem] using eq_of_beq hfound
  exact congrArg Fin.val ((List.Nodup.get_inj_iff hnd).mp hg)

theorem reindexRow_self (cols : List String) (hnd : cols.Nodup)
    (r : List Val) (hlen : r.length = cols.length) :
    reindexRow cols cols r = r := by
  apply List.ext_getElem
  · simp [reindexRow, hlen]
  · intro i h1 h2
    simp only [reindexRow, List.getElem_map]
    have hic : i < cols.length := by
      simpa [reindexRow] using h1
    rw [if_pos (List.getElem_mem hic), colIdx_getElem_self cols hnd i hic,
      List.getD_eq_getElem?_getD,
      List.getElem?_eq_getElem (by rw [hlen]; exact hic)]
    rfl

/-- C4 (amended): a successful merge concatenates the reference rows followed
by the (optionally cleaned) new rows, each aligned to the result's column
order, with cross-dataset duplicates and missing-target rows removed (the
result's rows are a subsequence of that concatenation); the result's columns
are the reference columns followed by the new dataset's extra columns —
matching column sets give exactly the reference column order, and differing
column sets do NOT fail with a `SchemaMismatch`: the merge still produces a
dataset, over the union of the columns. -/
theorem merge_produces_union_concat (old new : Dataset) (c : Bool)
    (m : Dataset) (h : merge_new_data old new c = .ok m) :
    m.cols = old.cols ++ new.cols.filter (fun x => x ∉ old.cols) ∧
    (new.cols ⊆ old.cols → m.cols = old.cols) ∧
    ∃ n, (if c then clean_data new "Salary" true .drop
          else Except.ok new) = .ok n ∧
      n.cols = new.cols ∧
      m.rows.Sublist
        (old.rows.map (reindexRow old.cols m.cols) ++
          n.rows.map (reindexRow n.cols m.cols)) ∧
      (old.cols.Nodup → (∀ r ∈ old.rows, r.length = old.cols.length) →
        new.cols ⊆ old.cols →
        old.rows.map (reindexRow old.cols m.cols) = old.rows) := by
  unfold merge_new_data at h
  cases hstage : (if c then clean_data new "Salary" true MissingPolicy.drop
      else Except.ok new) with
  | error e =>
      rw [hstage] at h
      simp at h
  | ok n =>
      rw [hstage] at h
      injection h with hm
      subst hm
      have hncols : n.cols = new.cols := by
        cases c with
        | true =>
            rw [if_pos rfl] at hstage
            exact clean_data_cols new "Salary" true .drop n hstage
        | false =>
            rw [if_neg (by simp)] at hstage
            injection hstage with hn
            rw [← hn]
      have hmcols : (dropMissingSalary
          { concatFrames old n with
            rows := dedupFirst (concatFrames old n).rows }).cols =
          old.cols ++ new.cols.filter (fun x => x ∉ old.cols) := by
        rw [dropMissingSalary_cols]
        show (concatFrames old n).cols = _
        unfold concatFrames
        rw [hncols]
      refine ⟨hmcols, ?_, n, rfl, hncols, ?_, ?_⟩
      · intro hsub
        rw [hmcols, List.filter_eq_nil_iff.mpr
          (fun a ha => by simp [hsub ha]), List.append_nil]
      · rw [dropMissingSalary_cols]
        exact (dropMissingSalary_rows_sublist _).trans
          (dedupFirst_sublist (concatFrames old n).rows)
      · intro hnd hlen hsub
        have hcolsEq : (dropMissingSalary
            { concatFrames old n with
              rows := dedupFirst (concatFrames old n).rows }).cols =
            old.cols := by
          rw [hmcols, List.filter_eq_nil_iff.mpr
            (fun a ha => by simp [hsub ha]), List.append_nil]
        rw [hcolsEq]
        exact map_eq_self_of _ _
          (fun r hr => reindexRow_self old.cols hnd r (hlen r hr))

/-- C4 witness: merging two datasets with identical column sets keeps the
reference column order and yields the reference rows followed by the new
rows, with the cross-dataset duplicate row collapsed. -/
theorem merge_produces_union_concat_witness :
    merge_new_data oldW4 newW4 true = .ok mW4 ∧
    mW4.cols = oldW4.cols ∧
    mW4.rows.Sublist (oldW4.rows ++ newW4.rows) := by
  have h : merge_new_data oldW4 newW4 true = .ok mW4 := by decide
  have t := merge_produces_union_concat oldW4 newW4 true mW4 h
  have hcolsW : mW4.cols = oldW4.cols := t.2.1 (by decide)
  refine ⟨h, hcolsW, ?_⟩
  obtain ⟨n, hst, _, hsubl, _⟩ := t.2.2
  have hn : n = newW4 := by
    rw [if_pos rfl] at hst
    have hclean : clean_data newW4 "Salary" true .drop = .ok newW4 := by
      decide
    rw [hclean] at hst
    exact (Except.ok.inj hst).symm
  subst hn
  rw [hcolsW] at hsubl
  have e1 : oldW4.rows.map (reindexRow oldW4.cols oldW4.cols) =
      oldW4.rows := by decide
  have e2 : newW4.rows.map (reindexRow newW4.cols oldW4.cols) =
      newW4.rows := by decide
  rw [e1, e2] at hsubl
  exact hsubl

/-- C4 counterexample: the two datasets' column sets differ (`B` is a new
column absent from the reference), yet the merge does not fail with a
`SchemaMismatch` — it returns a merged dataset over the union of the columns
with the absent cells missing. -/
theorem merge_mismatched_schema_no_failure :
    ("B" ∈ newC4.cols ∧ "B" ∉ oldC4.cols) ∧
    merge_new_data oldC4 newC4 true =
      .ok ⟨["Salary", "A", "B"], [.numeric, .numeric, .numeric],
        [[.num 1, .num 2, .na], [.num 3, .na, .num 4]]⟩ := by
  decide

end SalaryPipeline
